import Mathlib

/-!
# The packager launcher bootstrap (`start_launcher`)

A shallow embedding of `src/jdk.packager/share/native/library/common/main.cpp`.

`start_launcher` is a straight-line procedure over collaborators that live in other
files (`Platform`, `Package`, `FilePath`, `Macros`, `Messages`, `RunVM`).  The collaborators
are a parameter of the model: an environment answers every call, may change its own state,
and may throw.  The launcher itself is translated statement by statement into a state and
exception monad that also records the trace of the calls it makes, with their answers.

The model is the production build: the `-nativedebug` branch is compiled only under
`#ifdef DEBUG` and is not part of it.

A property of a run is stated over the trace the run leaves: which calls were made, in
which order, with which answers.  Properties that describe what the launcher does in a
given situation are proved for the runs in which no collaborator call throws (`noThrow`);
properties that hold whatever the collaborators do, a throw included, carry no such
hypothesis.  The theorems rest on `launch_path`: every run follows one of the paths
listed by the predicates of the section on paths.
-/

namespace Launcher

/-- The `AppCDSState` enumeration used by `Platform::GetAppCDSState`. -/
inductive AppCDSState
  | cdsUninitialized
  | cdsDisabled
  | cdsEnabled
  | cdsAuto
  | cdsGenCache
  deriving DecidableEq, Repr

/-- The launch modes that `start_launcher` passes to `RunVM`. -/
inductive JvmLaunchType
  | USER_APP_LAUNCH
  | SINGLE_INSTANCE_NOTIFICATION_LAUNCH
  deriving DecidableEq, Repr

/-- The one message key that `start_launcher` looks up. -/
inductive MessageKey
  | APPCDS_CACHE_FILE_NOT_FOUND
  deriving DecidableEq, Repr

/-- Exceptions, split the way the `catch` clause of `start_launcher` splits them:
`FileNotFoundException` is caught there, every other exception is not. -/
inductive Exc
  | FileNotFoundException (message : String)
  | Exception (message : String)
  deriving DecidableEq, Repr

/-- How a call to a collaborator ends: it returns a value or it throws. -/
inductive Outcome (α : Type)
  | returned (a : α)
  | threw (e : Exc)
  deriving DecidableEq, Repr

/-- The calls `start_launcher` makes to code outside `main.cpp`, indexed by the type of the
answer.  `Package_GetInstance` and `Initialize` run the package initialisation; their
answer is the AppCDS state that initialisation leaves in the platform. -/
inductive Call : Type → Type
  | Platform_GetInstance : Call Unit
  | Package_GetInstance : Call AppCDSState
  | Macros_Initialize : Call Unit
  | SetCommandLineArguments (argv : List String) : Call Unit
  | GetPackageAppDirectory : Call String
  | SetCurrentDirectory (dir : String) : Call Unit
  | CheckForSingleInstance : Call Bool
  | reactivateAnotherInstance : Call Unit
  | GetArgs : Call (List String)
  | GetSingleInstanceProcessId : Call Int
  | RunVM (mode : JvmLaunchType) : Call Bool
  | GetAppCDSCacheDirectory : Call String
  | DirectoryExists (path : String) : Call Bool
  | CreateDirectory (path : String) (flag : Bool) : Call Unit
  | GetAppCDSCacheFileName : Call String
  | FileExists (path : String) : Call Bool
  | DeleteFile (path : String) : Call Unit
  | CreateProcess : Call Unit
  | GetModuleFileName : Call String
  | Execute (app : String) (args : List String) (wait : Bool) : Call Bool
  | Clear : Call Unit
  | Initialize : Call AppCDSState
  | GetMessage (key : MessageKey) : Call String
  | ShowMessage (message : String) : Call Unit

/-- One entry of the trace: a call made by `start_launcher`, with its arguments and how it
ended.  `SetAppCDSState` and `GetAppCDSState` are the two accessors of the platform field. -/
inductive Event
  | Platform_GetInstance (r : Outcome Unit)
  | SetAppCDSState (value : AppCDSState)
  | GetAppCDSState (value : AppCDSState)
  | Package_GetInstance (r : Outcome AppCDSState)
  | Macros_Initialize (r : Outcome Unit)
  | SetCommandLineArguments (argv : List String) (r : Outcome Unit)
  | GetPackageAppDirectory (r : Outcome String)
  | SetCurrentDirectory (dir : String) (r : Outcome Unit)
  | CheckForSingleInstance (r : Outcome Bool)
  | reactivateAnotherInstance (r : Outcome Unit)
  | GetArgs (r : Outcome (List String))
  | GetSingleInstanceProcessId (r : Outcome Int)
  | RunVM (mode : JvmLaunchType) (r : Outcome Bool)
  | GetAppCDSCacheDirectory (r : Outcome String)
  | DirectoryExists (path : String) (r : Outcome Bool)
  | CreateDirectory (path : String) (flag : Bool) (r : Outcome Unit)
  | GetAppCDSCacheFileName (r : Outcome String)
  | FileExists (path : String) (r : Outcome Bool)
  | DeleteFile (path : String) (r : Outcome Unit)
  | CreateProcess (r : Outcome Unit)
  | GetModuleFileName (r : Outcome String)
  | Execute (app : String) (args : List String) (wait : Bool) (r : Outcome Bool)
  | Clear (r : Outcome Unit)
  | Initialize (r : Outcome AppCDSState)
  | GetMessage (key : MessageKey) (r : Outcome String)
  | ShowMessage (message : String) (r : Outcome Unit)
  deriving DecidableEq, Repr

/-- The trace entry of a call and its outcome. -/
def Call.event : {α : Type} → Call α → Outcome α → Event
  | _, .Platform_GetInstance, r => .Platform_GetInstance r
  | _, .Package_GetInstance, r => .Package_GetInstance r
  | _, .Macros_Initialize, r => .Macros_Initialize r
  | _, .SetCommandLineArguments argv, r => .SetCommandLineArguments argv r
  | _, .GetPackageAppDirectory, r => .GetPackageAppDirectory r
  | _, .SetCurrentDirectory dir, r => .SetCurrentDirectory dir r
  | _, .CheckForSingleInstance, r => .CheckForSingleInstance r
  | _, .reactivateAnotherInstance, r => .reactivateAnotherInstance r
  | _, .GetArgs, r => .GetArgs r
  | _, .GetSingleInstanceProcessId, r => .GetSingleInstanceProcessId r
  | _, .RunVM mode, r => .RunVM mode r
  | _, .GetAppCDSCacheDirectory, r => .GetAppCDSCacheDirectory r
  | _, .DirectoryExists path, r => .DirectoryExists path r
  | _, .CreateDirectory path flag, r => .CreateDirectory path flag r
  | _, .GetAppCDSCacheFileName, r => .GetAppCDSCacheFileName r
  | _, .FileExists path, r => .FileExists path r
  | _, .DeleteFile path, r => .DeleteFile path r
  | _, .CreateProcess, r => .CreateProcess r
  | _, .GetModuleFileName, r => .GetModuleFileName r
  | _, .Execute app args wait, r => .Execute app args wait r
  | _, .Clear, r => .Clear r
  | _, .Initialize, r => .Initialize r
  | _, .GetMessage key, r => .GetMessage key r
  | _, .ShowMessage message, r => .ShowMessage message r

/-- The collaborators of `start_launcher`, over a world of type `σ`.  `handle` answers a
call: it sees the platform's AppCDS state and the world, and gives the outcome of the call
and the world after it.  `Format` is `PlatformString::Format` applied to a template and
one argument. -/
structure Env (σ : Type) where
  handle : {α : Type} → Call α → AppCDSState → σ → Outcome α × σ
  Format : String → String → String

/-- The state a run of `start_launcher` threads: the platform's `FAppCDSState` field, the
world of the collaborators, and the trace of the calls made so far, oldest first. -/
structure LauncherState (σ : Type) where
  FAppCDSState : AppCDSState
  world : σ
  trace : List Event

/-- The result of running a piece of the launcher: a value or a thrown exception, each
with the state reached. -/
inductive Res (σ α : Type)
  | ok (a : α) (s : LauncherState σ)
  | throw (e : Exc) (s : LauncherState σ)

/-- The state a result carries. -/
def Res.state {σ α : Type} : Res σ α → LauncherState σ
  | .ok _ s => s
  | .throw _ s => s

/-- How a result ends: with a value or with an exception that leaves the computation. -/
def Res.outcome {σ α : Type} : Res σ α → Except Exc α
  | .ok a _ => .ok a
  | .throw e _ => .error e

/-- Computations of the launcher: state passing with exceptions. -/
def M (σ α : Type) : Type := LauncherState σ → Res σ α

/-- Sequencing: the second computation runs only when the first one returns. -/
def M.bind {σ α β : Type} (x : M σ α) (f : α → M σ β) : M σ β := fun s =>
  match x s with
  | .ok a s1 => f a s1
  | .throw e s1 => .throw e s1

instance {σ : Type} : Monad (M σ) where
  pure a := fun s => .ok a s
  bind := M.bind

/-- The C++ statement `throw e`. -/
def raise {σ α : Type} (e : Exc) : M σ α := fun s => .throw e s

/-- Make a call to a collaborator, record it in the trace and return its answer or throw
its exception. -/
def call {σ α : Type} (env : Env σ) (c : Call α) : M σ α := fun s =>
  match env.handle c s.FAppCDSState s.world with
  | (.returned a, w) =>
      .ok a { s with world := w, trace := s.trace ++ [c.event (.returned a)] }
  | (.threw e, w) =>
      .throw e { s with world := w, trace := s.trace ++ [c.event (.threw e)] }

/-- Modelled from the spec: `Platform::SetAppCDSState` (Platform.h is not under src/), the
setter of the CacheState value, as a write of the field. -/
def SetAppCDSState {σ : Type} (value : AppCDSState) : M σ Unit := fun s =>
  .ok () { s with FAppCDSState := value, trace := s.trace ++ [.SetAppCDSState value] }

/-- Modelled from the spec: `Platform::GetAppCDSState` (Platform.h is not under src/), the
getter of the CacheState value, as a read of the field. -/
def GetAppCDSState {σ : Type} : M σ AppCDSState := fun s =>
  .ok s.FAppCDSState { s with trace := s.trace ++ [.GetAppCDSState s.FAppCDSState] }

/-- Modelled from the spec: a call that runs the package initialisation (Package.cpp is not
under src/).  The CacheState is set from parsed arguments and configuration, so the
initialisation is the one collaborator that may write the platform's AppCDS state: the
state it leaves is the answer of the call. -/
def packageInit {σ : Type} (env : Env σ) (c : Call AppCDSState) : M σ Unit := fun s =>
  match call env c s with
  | .ok value s1 => .ok () { s1 with FAppCDSState := value }
  | .throw e s1 => .throw e s1

/-- The argument loop of `start_launcher` (lines 85-110), from `argv[index]` on; the result
is `parentProcess`. -/
def scanArguments {σ : Type} : List String → Bool → M σ Bool
  | [], parentProcess => pure parentProcess
  | argument :: rest, parentProcess =>
      if argument = "-Xappcds:generatecache" then do
        SetAppCDSState .cdsGenCache
        scanArguments rest parentProcess
      else if argument = "-Xappcds:off" then do
        SetAppCDSState .cdsDisabled
        scanArguments rest parentProcess
      else if argument = "-Xapp:child" then
        scanArguments rest false
      else
        scanArguments rest parentProcess

/-- The single-instance block (lines 118-127): `some r` when `start_launcher` returns `r`
from inside the block, `none` when no other instance is found and the launch goes on. -/
def singleInstance {σ : Type} (env : Env σ) : M σ (Option Bool) := do
  if (← call env .CheckForSingleInstance) then
    call env .reactivateAnotherInstance
    if (← call env .GetArgs).length > 0 then
      if (← call env .GetSingleInstanceProcessId) ≠ 0 then
        let r ← call env (.RunVM .SINGLE_INSTANCE_NOTIFICATION_LAUNCH)
        return some r
      else
        return some true
    else
      return some true
  else
    return none

/-- The first `switch (platform.GetAppCDSState())` (lines 129-175): cache resolution. -/
def resolveCache {σ : Type} (env : Env σ) (parentProcess : Bool) : M σ Unit := do
  match (← GetAppCDSState) with
  | .cdsDisabled => pure ()
  | .cdsUninitialized => pure ()
  | .cdsEnabled => pure ()
  | .cdsGenCache =>
      let cacheDirectory ← call env .GetAppCDSCacheDirectory
      if (← call env (.DirectoryExists cacheDirectory)) = false then
        call env (.CreateDirectory cacheDirectory true)
      else
        let cacheFileName ← call env .GetAppCDSCacheFileName
        if (← call env (.FileExists cacheFileName)) = true then
          call env (.DeleteFile cacheFileName)
        else
          pure ()
  | .cdsAuto =>
      let cacheFileName ← call env .GetAppCDSCacheFileName
      if parentProcess = true then
        if (← call env (.FileExists cacheFileName)) = false then
          call env .CreateProcess
          let args := ["-Xappcds:generatecache", "-Xapp:child"]
          let app ← call env .GetModuleFileName
          let _ ← call env (.Execute app args true)
          if (← call env (.FileExists cacheFileName)) = false then
            SetAppCDSState .cdsDisabled
            call env .Clear
            packageInit env .Initialize
          else
            pure ()
        else
          pure ()
      else
        pure ()

/-- The second `switch (platform.GetAppCDSState())` (lines 177-205): validation. -/
def validateCache {σ : Type} (env : Env σ) : M σ Unit := do
  match (← GetAppCDSState) with
  | .cdsDisabled => pure ()
  | .cdsGenCache => pure ()
  | .cdsEnabled | .cdsAuto =>
      let cacheFileName ← call env .GetAppCDSCacheFileName
      if (← call env (.FileExists cacheFileName)) = false then
        let template ← call env (.GetMessage .APPCDS_CACHE_FILE_NOT_FOUND)
        let message := env.Format template cacheFileName
        raise (.FileNotFoundException message)
      else
        pure ()
  | .cdsUninitialized => call env (.ShowMessage "Internal Error")

/-- The statements of the `try` block before the single-instance block (lines 85-116): the
argument loop, then the initialisation of the package; the result is `parentProcess`. -/
def preamble {σ : Type} (env : Env σ) (argv : List String) : M σ Bool := do
  let parentProcess ← scanArguments argv true
  packageInit env .Package_GetInstance
  call env .Macros_Initialize
  call env (.SetCommandLineArguments argv)
  let appDirectory ← call env .GetPackageAppDirectory
  call env (.SetCurrentDirectory appDirectory)
  pure parentProcess

/-- The body of the `try` block of `start_launcher` (lines 85-208); the value is what the
function returns when the block completes. -/
def tryBlock {σ : Type} (env : Env σ) (argv : List String) : M σ Bool := do
  let parentProcess ← preamble env argv
  match (← singleInstance env) with
  | some r => pure r
  | none =>
      resolveCache env parentProcess
      validateCache env
      call env (.RunVM .USER_APP_LAUNCH)

/-- The function `start_launcher(argc, argv)` of main.cpp: `argv` holds the `argc`
arguments.  A `FileNotFoundException` thrown in the `try` block is caught, its message is
shown and `result`, still `false`, is returned; any other exception leaves the function. -/
def start_launcher {σ : Type} (env : Env σ) (argv : List String) : M σ Bool := fun s =>
  match call env .Platform_GetInstance s with
  | .throw e s1 => .throw e s1
  | .ok _ s1 =>
      match tryBlock env argv s1 with
      | .ok result s2 => .ok result s2
      | .throw (.FileNotFoundException message) s2 =>
          match call env (.ShowMessage message) s2 with
          | .ok _ s3 => .ok false s3
          | .throw e s3 => .throw e s3
      | .throw (.Exception message) s2 => .throw (.Exception message) s2

/-- A run of `start_launcher` from a platform state and a world, with an empty trace. -/
def launch {σ : Type} (env : Env σ) (argv : List String) (cds : AppCDSState) (w : σ) :
    Res σ Bool :=
  start_launcher env argv { FAppCDSState := cds, world := w, trace := [] }

/-! ## Reading a trace -/

/-- Whether an entry of the trace is a call that threw. -/
def Event.threw : Event → Bool
  | .Platform_GetInstance (.threw _) => true
  | .Package_GetInstance (.threw _) => true
  | .Macros_Initialize (.threw _) => true
  | .SetCommandLineArguments _ (.threw _) => true
  | .GetPackageAppDirectory (.threw _) => true
  | .SetCurrentDirectory _ (.threw _) => true
  | .CheckForSingleInstance (.threw _) => true
  | .reactivateAnotherInstance (.threw _) => true
  | .GetArgs (.threw _) => true
  | .GetSingleInstanceProcessId (.threw _) => true
  | .RunVM _ (.threw _) => true
  | .GetAppCDSCacheDirectory (.threw _) => true
  | .DirectoryExists _ (.threw _) => true
  | .CreateDirectory _ _ (.threw _) => true
  | .GetAppCDSCacheFileName (.threw _) => true
  | .FileExists _ (.threw _) => true
  | .DeleteFile _ (.threw _) => true
  | .CreateProcess (.threw _) => true
  | .GetModuleFileName (.threw _) => true
  | .Execute _ _ _ (.threw _) => true
  | .Clear (.threw _) => true
  | .Initialize (.threw _) => true
  | .GetMessage _ (.threw _) => true
  | .ShowMessage _ (.threw _) => true
  | _ => false

/-- No call recorded in the trace threw: every collaborator returned. -/
def noThrow (tr : List Event) : Prop := ∀ e ∈ tr, e.threw = false

instance (tr : List Event) : Decidable (noThrow tr) := by
  unfold noThrow; infer_instance

/-- Whether an entry is a read of the AppCDS state (`platform.GetAppCDSState()`). -/
def Event.isRead : Event → Bool
  | .GetAppCDSState _ => true
  | _ => false

/-- The entries that follow the first read of the AppCDS state. -/
def afterRead (tr : List Event) : List Event :=
  (tr.dropWhile (fun e => !e.isRead)).drop 1

/-- The entries of the cache resolution step: those between the first read of the AppCDS
state (line 129) and the second one. -/
def resolutionTrace (tr : List Event) : List Event :=
  (afterRead tr).takeWhile (fun e => !e.isRead)

/-- The entries from the validation step on: those after the second read of the AppCDS
state (line 178). -/
def validationTrace (tr : List Event) : List Event :=
  afterRead (afterRead tr)

/-- The values read by `platform.GetAppCDSState()`, in order. -/
def cdsReads (tr : List Event) : List AppCDSState :=
  tr.filterMap (fun e => match e with | .GetAppCDSState c => some c | _ => none)

/-- The AppCDS state at cache resolution: the value of the first read. -/
def stateAtResolution (tr : List Event) : Option AppCDSState := (cdsReads tr).head?

/-- The AppCDS state at validation: the value of the second read. -/
def stateAtValidation (tr : List Event) : Option AppCDSState := (cdsReads tr).tail.head?

/-- The launch modes of the `RunVM` calls, in order. -/
def runVMCalls (tr : List Event) : List JvmLaunchType :=
  tr.filterMap (fun e => match e with | .RunVM mode _ => some mode | _ => none)

/-- The messages passed to `platform.ShowMessage`, in order. -/
def shownMessages (tr : List Event) : List String :=
  tr.filterMap (fun e => match e with | .ShowMessage m _ => some m | _ => none)

/-- The answers of the `FilePath::FileExists` calls, in order. -/
def fileProbes (tr : List Event) : List Bool :=
  tr.filterMap (fun e => match e with | .FileExists _ (.returned b) => some b | _ => none)

/-- Whether an entry creates or executes a child process. -/
def Event.isSpawn : Event → Bool
  | .CreateProcess _ => true
  | .Execute _ _ _ _ => true
  | _ => false

/-- Whether an entry belongs to the cache logic of `start_launcher` (lines 129-205): a read
of the AppCDS state by one of the two switches, a query of the cache directory or file, a
directory creation, a file deletion, a child process, a reset of the package, or the lookup
of the message for a missing cache file. -/
def Event.isCacheEffect : Event → Bool
  | .GetAppCDSState _ => true
  | .GetAppCDSCacheDirectory _ => true
  | .DirectoryExists _ _ => true
  | .CreateDirectory _ _ _ => true
  | .GetAppCDSCacheFileName _ => true
  | .FileExists _ _ => true
  | .DeleteFile _ _ => true
  | .CreateProcess _ => true
  | .GetModuleFileName _ => true
  | .Execute _ _ _ _ => true
  | .Clear _ => true
  | .Initialize _ => true
  | .GetMessage _ _ => true
  | _ => false

/-- Whether an entry is of a kind that the cache resolution step makes after its read of
the AppCDS state. -/
def Event.inResolution : Event → Bool
  | .SetAppCDSState _ => true
  | .GetAppCDSCacheDirectory _ => true
  | .DirectoryExists _ _ => true
  | .CreateDirectory _ _ _ => true
  | .GetAppCDSCacheFileName _ => true
  | .FileExists _ _ => true
  | .DeleteFile _ _ => true
  | .CreateProcess _ => true
  | .GetModuleFileName _ => true
  | .Execute _ _ _ _ => true
  | .Clear _ => true
  | .Initialize _ => true
  | _ => false

/-- Whether an entry is of a kind that the validation step makes after its read of the
AppCDS state. -/
def Event.inValidation : Event → Bool
  | .GetAppCDSCacheFileName _ => true
  | .FileExists _ _ => true
  | .GetMessage _ _ => true
  | .ShowMessage _ _ => true
  | _ => false

/-- The values written by `platform.SetAppCDSState`, in order. -/
def stateWrites (tr : List Event) : List AppCDSState :=
  tr.filterMap (fun e => match e with | .SetAppCDSState c => some c | _ => none)

/-- The child processes executed: the executable, the arguments and the wait flag of each
`process->Execute` call, in order. -/
def executions (tr : List Event) : List (String × List String × Bool) :=
  tr.filterMap (fun e => match e with
    | .Execute app args wait _ => some (app, args, wait)
    | _ => none)

/-- The answers of `package.CheckForSingleInstance`, in order. -/
def singleInstanceChecks (tr : List Event) : List (Outcome Bool) :=
  tr.filterMap (fun e => match e with | .CheckForSingleInstance o => some o | _ => none)

/-- The directory creations and file deletions, in order. -/
def filesystemEffects (tr : List Event) : List Event :=
  tr.filter (fun e => match e with
    | .CreateDirectory _ _ _ => true
    | .DeleteFile _ _ => true
    | _ => false)

/-- The exception thrown by an entry that is a failed operation of the cache preparation:
the creation of the cache directory, the deletion of the stale cache file, the creation or
the execution of the child process. -/
def Event.cacheFailure : Event → Option Exc
  | .CreateDirectory _ _ (.threw e) => some e
  | .DeleteFile _ (.threw e) => some e
  | .CreateProcess (.threw e) => some e
  | .Execute _ _ _ (.threw e) => some e
  | _ => none

/-- Whether an entry writes the AppCDS state or resets the package configuration:
`platform.SetAppCDSState`, `package.Clear` or `package.Initialize`. -/
def Event.isReset : Event → Bool
  | .SetAppCDSState _ => true
  | .Clear _ => true
  | .Initialize _ => true
  | _ => false

/-- The exception a recorded call threw, if it threw. -/
def Event.thrown : Event → Option Exc
  | .Platform_GetInstance (.threw e) => some e
  | .Package_GetInstance (.threw e) => some e
  | .Macros_Initialize (.threw e) => some e
  | .SetCommandLineArguments _ (.threw e) => some e
  | .GetPackageAppDirectory (.threw e) => some e
  | .SetCurrentDirectory _ (.threw e) => some e
  | .CheckForSingleInstance (.threw e) => some e
  | .reactivateAnotherInstance (.threw e) => some e
  | .GetArgs (.threw e) => some e
  | .GetSingleInstanceProcessId (.threw e) => some e
  | .RunVM _ (.threw e) => some e
  | .GetAppCDSCacheDirectory (.threw e) => some e
  | .DirectoryExists _ (.threw e) => some e
  | .CreateDirectory _ _ (.threw e) => some e
  | .GetAppCDSCacheFileName (.threw e) => some e
  | .FileExists _ (.threw e) => some e
  | .DeleteFile _ (.threw e) => some e
  | .CreateProcess (.threw e) => some e
  | .GetModuleFileName (.threw e) => some e
  | .Execute _ _ _ (.threw e) => some e
  | .Clear (.threw e) => some e
  | .Initialize (.threw e) => some e
  | .GetMessage _ (.threw e) => some e
  | .ShowMessage _ (.threw e) => some e
  | _ => none

/-- The exceptions the collaborator calls of a trace threw, in order.  The
`FileNotFoundException` that the validation step of `start_launcher` throws itself is not
among them: it is not the answer of a call. -/
def thrownExceptions (tr : List Event) : List Exc :=
  tr.filterMap Event.thrown

/-- The AppCDS state after scanning `argv`, starting from `cds`. -/
def scanState : List String → AppCDSState → AppCDSState
  | [], cds => cds
  | argument :: rest, cds =>
      if argument = "-Xappcds:generatecache" then scanState rest .cdsGenCache
      else if argument = "-Xappcds:off" then scanState rest .cdsDisabled
      else scanState rest cds

/-- The value of `parentProcess` after scanning `argv`, starting from `parentProcess`. -/
def scanParent : List String → Bool → Bool
  | [], parentProcess => parentProcess
  | argument :: rest, parentProcess =>
      if argument = "-Xappcds:generatecache" then scanParent rest parentProcess
      else if argument = "-Xappcds:off" then scanParent rest parentProcess
      else if argument = "-Xapp:child" then scanParent rest false
      else scanParent rest parentProcess

/-- Whether an argument is one of the two cache flags. -/
def isCacheFlag (argument : String) : Bool :=
  argument == "-Xappcds:generatecache" || argument == "-Xappcds:off"

/-- The AppCDS state the specification gives the argument scan: `GenerateCache` when the
last argument equal to one of the two cache flags is `-Xappcds:generatecache`, `Disabled`
when it is `-Xappcds:off`, and the state before the scan when neither occurs. -/
def lastFlagState (argv : List String) (cds : AppCDSState) : AppCDSState :=
  match (argv.filter isCacheFlag).getLast? with
  | some flag => if flag = "-Xappcds:generatecache" then .cdsGenCache else .cdsDisabled
  | none => cds

/-- The trace entries the scan of `argv` adds. -/
def scanTrace : List String → List Event
  | [] => []
  | argument :: rest =>
      if argument = "-Xappcds:generatecache" then .SetAppCDSState .cdsGenCache :: scanTrace rest
      else if argument = "-Xappcds:off" then .SetAppCDSState .cdsDisabled :: scanTrace rest
      else scanTrace rest

/-- The trace of a run up to the single-instance check, when every call so far returned:
`c` is the AppCDS state the package initialisation leaves, `dir` the application
directory. -/
def headTrace (argv : List String) (c : AppCDSState) (dir : String) : List Event :=
  .Platform_GetInstance (.returned ()) :: (scanTrace argv ++
    [.Package_GetInstance (.returned c), .Macros_Initialize (.returned ()),
      .SetCommandLineArguments argv (.returned ()), .GetPackageAppDirectory (.returned dir),
      .SetCurrentDirectory dir (.returned ())])

/-- The trace of a run in which no other instance is found, up to the second read of the
AppCDS state: `R` are the entries of the cache resolution step from state `c`, and `X` the
entries after the read of the state `c2` by the validation step. -/
def bodyTrace (argv : List String) (c : AppCDSState) (dir : String) (R : List Event)
    (c2 : AppCDSState) (X : List Event) : List Event :=
  headTrace argv c dir ++ .CheckForSingleInstance (.returned false) ::
    .GetAppCDSState c :: (R ++ .GetAppCDSState c2 :: X)

/-! ## The paths of a run

Every piece of `start_launcher` makes a fixed sequence of calls, and which call comes next
depends only on the answers so far.  The predicates below list, for each piece, the
sequences of trace entries it can add, with the way the piece ends and the AppCDS state it
leaves.  They are proved sound against the code further down. -/

/-- The paths of `preamble argv` from AppCDS state `cds`. -/
inductive PreamblePath (argv : List String) (cds : AppCDSState) :
    List Event → Except Exc Bool → AppCDSState → Prop
  | packageThrew (e : Exc) :
      PreamblePath argv cds (scanTrace argv ++ [.Package_GetInstance (.threw e)])
        (.error e) (scanState argv cds)
  | macrosThrew (c : AppCDSState) (e : Exc) :
      PreamblePath argv cds
        (scanTrace argv ++ [.Package_GetInstance (.returned c), .Macros_Initialize (.threw e)])
        (.error e) c
  | setArgsThrew (c : AppCDSState) (e : Exc) :
      PreamblePath argv cds
        (scanTrace argv ++ [.Package_GetInstance (.returned c),
          .Macros_Initialize (.returned ()), .SetCommandLineArguments argv (.threw e)])
        (.error e) c
  | appDirThrew (c : AppCDSState) (e : Exc) :
      PreamblePath argv cds
        (scanTrace argv ++ [.Package_GetInstance (.returned c),
          .Macros_Initialize (.returned ()), .SetCommandLineArguments argv (.returned ()),
          .GetPackageAppDirectory (.threw e)])
        (.error e) c
  | setDirThrew (c : AppCDSState) (dir : String) (e : Exc) :
      PreamblePath argv cds
        (scanTrace argv ++ [.Package_GetInstance (.returned c),
          .Macros_Initialize (.returned ()), .SetCommandLineArguments argv (.returned ()),
          .GetPackageAppDirectory (.returned dir), .SetCurrentDirectory dir (.threw e)])
        (.error e) c
  | done (c : AppCDSState) (dir : String) :
      PreamblePath argv cds
        (scanTrace argv ++ [.Package_GetInstance (.returned c),
          .Macros_Initialize (.returned ()), .SetCommandLineArguments argv (.returned ()),
          .GetPackageAppDirectory (.returned dir), .SetCurrentDirectory dir (.returned ())])
        (.ok (scanParent argv true)) c

/-- The paths of `singleInstance`; it leaves the AppCDS state `cds` as it is. -/
inductive SinglePath (cds : AppCDSState) :
    List Event → Except Exc (Option Bool) → AppCDSState → Prop
  | checkThrew (e : Exc) :
      SinglePath cds [.CheckForSingleInstance (.threw e)] (.error e) cds
  | alone :
      SinglePath cds [.CheckForSingleInstance (.returned false)] (.ok none) cds
  | reactivateThrew (e : Exc) :
      SinglePath cds [.CheckForSingleInstance (.returned true),
        .reactivateAnotherInstance (.threw e)] (.error e) cds
  | getArgsThrew (e : Exc) :
      SinglePath cds [.CheckForSingleInstance (.returned true),
        .reactivateAnotherInstance (.returned ()), .GetArgs (.threw e)] (.error e) cds
  | noArgs :
      SinglePath cds [.CheckForSingleInstance (.returned true),
        .reactivateAnotherInstance (.returned ()), .GetArgs (.returned [])]
        (.ok (some true)) cds
  | pidThrew (args : List String) (h : args ≠ []) (e : Exc) :
      SinglePath cds [.CheckForSingleInstance (.returned true),
        .reactivateAnotherInstance (.returned ()), .GetArgs (.returned args),
        .GetSingleInstanceProcessId (.threw e)] (.error e) cds
  | noPid (args : List String) (h : args ≠ []) :
      SinglePath cds [.CheckForSingleInstance (.returned true),
        .reactivateAnotherInstance (.returned ()), .GetArgs (.returned args),
        .GetSingleInstanceProcessId (.returned 0)] (.ok (some true)) cds
  | notifyThrew (args : List String) (h : args ≠ []) (pid : Int) (hp : pid ≠ 0) (e : Exc) :
      SinglePath cds [.CheckForSingleInstance (.returned true),
        .reactivateAnotherInstance (.returned ()), .GetArgs (.returned args),
        .GetSingleInstanceProcessId (.returned pid),
        .RunVM .SINGLE_INSTANCE_NOTIFICATION_LAUNCH (.threw e)] (.error e) cds
  | notified (args : List String) (h : args ≠ []) (pid : Int) (hp : pid ≠ 0) (r : Bool) :
      SinglePath cds [.CheckForSingleInstance (.returned true),
        .reactivateAnotherInstance (.returned ()), .GetArgs (.returned args),
        .GetSingleInstanceProcessId (.returned pid),
        .RunVM .SINGLE_INSTANCE_NOTIFICATION_LAUNCH (.returned r)] (.ok (some r)) cds

/-- The arguments given to the child process (lines 158-160). -/
def childArgs : List String := ["-Xappcds:generatecache", "-Xapp:child"]

/-- The paths of `resolveCache parentProcess` from AppCDS state `cds`, after its read of
the state: the entries are those that follow `GetAppCDSState cds`. -/
inductive ResolvePath : Bool → AppCDSState → List Event → Except Exc Unit → AppCDSState → Prop
  | disabled (p : Bool) : ResolvePath p .cdsDisabled [] (.ok ()) .cdsDisabled
  | uninitialized (p : Bool) : ResolvePath p .cdsUninitialized [] (.ok ()) .cdsUninitialized
  | enabled (p : Bool) : ResolvePath p .cdsEnabled [] (.ok ()) .cdsEnabled
  | genDirNameThrew (p : Bool) (e : Exc) :
      ResolvePath p .cdsGenCache [.GetAppCDSCacheDirectory (.threw e)] (.error e) .cdsGenCache
  | genDirExistsThrew (p : Bool) (d : String) (e : Exc) :
      ResolvePath p .cdsGenCache
        [.GetAppCDSCacheDirectory (.returned d), .DirectoryExists d (.threw e)]
        (.error e) .cdsGenCache
  | genCreateThrew (p : Bool) (d : String) (e : Exc) :
      ResolvePath p .cdsGenCache
        [.GetAppCDSCacheDirectory (.returned d), .DirectoryExists d (.returned false),
          .CreateDirectory d true (.threw e)]
        (.error e) .cdsGenCache
  | genCreated (p : Bool) (d : String) :
      ResolvePath p .cdsGenCache
        [.GetAppCDSCacheDirectory (.returned d), .DirectoryExists d (.returned false),
          .CreateDirectory d true (.returned ())]
        (.ok ()) .cdsGenCache
  | genFileNameThrew (p : Bool) (d : String) (e : Exc) :
      ResolvePath p .cdsGenCache
        [.GetAppCDSCacheDirectory (.returned d), .DirectoryExists d (.returned true),
          .GetAppCDSCacheFileName (.threw e)]
        (.error e) .cdsGenCache
  | genFileExistsThrew (p : Bool) (d f : String) (e : Exc) :
      ResolvePath p .cdsGenCache
        [.GetAppCDSCacheDirectory (.returned d), .DirectoryExists d (.returned true),
          .GetAppCDSCacheFileName (.returned f), .FileExists f (.threw e)]
        (.error e) .cdsGenCache
  | genDeleteThrew (p : Bool) (d f : String) (e : Exc) :
      ResolvePath p .cdsGenCache
        [.GetAppCDSCacheDirectory (.returned d), .DirectoryExists d (.returned true),
          .GetAppCDSCacheFileName (.returned f), .FileExists f (.returned true),
          .DeleteFile f (.threw e)]
        (.error e) .cdsGenCache
  | genDeleted (p : Bool) (d f : String) :
      ResolvePath p .cdsGenCache
        [.GetAppCDSCacheDirectory (.returned d), .DirectoryExists d (.returned true),
          .GetAppCDSCacheFileName (.returned f), .FileExists f (.returned true),
          .DeleteFile f (.returned ())]
        (.ok ()) .cdsGenCache
  | genNoFile (p : Bool) (d f : String) :
      ResolvePath p .cdsGenCache
        [.GetAppCDSCacheDirectory (.returned d), .DirectoryExists d (.returned true),
          .GetAppCDSCacheFileName (.returned f), .FileExists f (.returned false)]
        (.ok ()) .cdsGenCache
  | autoFileNameThrew (p : Bool) (e : Exc) :
      ResolvePath p .cdsAuto [.GetAppCDSCacheFileName (.threw e)] (.error e) .cdsAuto
  | autoChild (f : String) :
      ResolvePath false .cdsAuto [.GetAppCDSCacheFileName (.returned f)] (.ok ()) .cdsAuto
  | autoFileExistsThrew (f : String) (e : Exc) :
      ResolvePath true .cdsAuto
        [.GetAppCDSCacheFileName (.returned f), .FileExists f (.threw e)]
        (.error e) .cdsAuto
  | autoPresent (f : String) :
      ResolvePath true .cdsAuto
        [.GetAppCDSCacheFileName (.returned f), .FileExists f (.returned true)]
        (.ok ()) .cdsAuto
  | autoCreateProcessThrew (f : String) (e : Exc) :
      ResolvePath true .cdsAuto
        [.GetAppCDSCacheFileName (.returned f), .FileExists f (.returned false),
          .CreateProcess (.threw e)]
        (.error e) .cdsAuto
  | autoModuleNameThrew (f : String) (e : Exc) :
      ResolvePath true .cdsAuto
        [.GetAppCDSCacheFileName (.returned f), .FileExists f (.returned false),
          .CreateProcess (.returned ()), .GetModuleFileName (.threw e)]
        (.error e) .cdsAuto
  | autoExecuteThrew (f app : String) (e : Exc) :
      ResolvePath true .cdsAuto
        [.GetAppCDSCacheFileName (.returned f), .FileExists f (.returned false),
          .CreateProcess (.returned ()), .GetModuleFileName (.returned app),
          .Execute app childArgs true (.threw e)]
        (.error e) .cdsAuto
  | autoRecheckThrew (f app : String) (b : Bool) (e : Exc) :
      ResolvePath true .cdsAuto
        [.GetAppCDSCacheFileName (.returned f), .FileExists f (.returned false),
          .CreateProcess (.returned ()), .GetModuleFileName (.returned app),
          .Execute app childArgs true (.returned b), .FileExists f (.threw e)]
        (.error e) .cdsAuto
  | autoGenerated (f app : String) (b : Bool) :
      ResolvePath true .cdsAuto
        [.GetAppCDSCacheFileName (.returned f), .FileExists f (.returned false),
          .CreateProcess (.returned ()), .GetModuleFileName (.returned app),
          .Execute app childArgs true (.returned b), .FileExists f (.returned true)]
        (.ok ()) .cdsAuto
  | autoClearThrew (f app : String) (b : Bool) (e : Exc) :
      ResolvePath true .cdsAuto
        [.GetAppCDSCacheFileName (.returned f), .FileExists f (.returned false),
          .CreateProcess (.returned ()), .GetModuleFileName (.returned app),
          .Execute app childArgs true (.returned b), .FileExists f (.returned false),
          .SetAppCDSState .cdsDisabled, .Clear (.threw e)]
        (.error e) .cdsDisabled
  | autoReinitThrew (f app : String) (b : Bool) (e : Exc) :
      ResolvePath true .cdsAuto
        [.GetAppCDSCacheFileName (.returned f), .FileExists f (.returned false),
          .CreateProcess (.returned ()), .GetModuleFileName (.returned app),
          .Execute app childArgs true (.returned b), .FileExists f (.returned false),
          .SetAppCDSState .cdsDisabled, .Clear (.returned ()), .Initialize (.threw e)]
        (.error e) .cdsDisabled
  | autoDowngraded (f app : String) (b : Bool) (c : AppCDSState) :
      ResolvePath true .cdsAuto
        [.GetAppCDSCacheFileName (.returned f), .FileExists f (.returned false),
          .CreateProcess (.returned ()), .GetModuleFileName (.returned app),
          .Execute app childArgs true (.returned b), .FileExists f (.returned false),
          .SetAppCDSState .cdsDisabled, .Clear (.returned ()), .Initialize (.returned c)]
        (.ok ()) c

/-- The paths of `validateCache` from AppCDS state `cds`, after its read of the state; it
leaves the state as it is.  `format` is `PlatformString::Format`. -/
inductive ValidatePath (format : String → String → String) :
    AppCDSState → List Event → Except Exc Unit → AppCDSState → Prop
  | disabled : ValidatePath format .cdsDisabled [] (.ok ()) .cdsDisabled
  | genCache : ValidatePath format .cdsGenCache [] (.ok ()) .cdsGenCache
  | fileNameThrew (c : AppCDSState) (hc : c = .cdsEnabled ∨ c = .cdsAuto) (e : Exc) :
      ValidatePath format c [.GetAppCDSCacheFileName (.threw e)] (.error e) c
  | fileExistsThrew (c : AppCDSState) (hc : c = .cdsEnabled ∨ c = .cdsAuto) (f : String)
      (e : Exc) :
      ValidatePath format c
        [.GetAppCDSCacheFileName (.returned f), .FileExists f (.threw e)] (.error e) c
  | present (c : AppCDSState) (hc : c = .cdsEnabled ∨ c = .cdsAuto) (f : String) :
      ValidatePath format c
        [.GetAppCDSCacheFileName (.returned f), .FileExists f (.returned true)] (.ok ()) c
  | getMessageThrew (c : AppCDSState) (hc : c = .cdsEnabled ∨ c = .cdsAuto) (f : String)
      (e : Exc) :
      ValidatePath format c
        [.GetAppCDSCacheFileName (.returned f), .FileExists f (.returned false),
          .GetMessage .APPCDS_CACHE_FILE_NOT_FOUND (.threw e)] (.error e) c
  | absent (c : AppCDSState) (hc : c = .cdsEnabled ∨ c = .cdsAuto) (f template : String) :
      ValidatePath format c
        [.GetAppCDSCacheFileName (.returned f), .FileExists f (.returned false),
          .GetMessage .APPCDS_CACHE_FILE_NOT_FOUND (.returned template)]
        (.error (.FileNotFoundException (format template f))) c
  | internalErrorThrew (e : Exc) :
      ValidatePath format .cdsUninitialized [.ShowMessage "Internal Error" (.threw e)]
        (.error e) .cdsUninitialized
  | internalError :
      ValidatePath format .cdsUninitialized [.ShowMessage "Internal Error" (.returned ())]
        (.ok ()) .cdsUninitialized

/-- How a call ends, as the end of the computation that makes it last. -/
def Outcome.toExcept {α : Type} : Outcome α → Except Exc α
  | .returned a => .ok a
  | .threw e => .error e

/-- The paths of `tryBlock argv` from AppCDS state `cds`. -/
inductive TryPath (format : String → String → String) (argv : List String)
    (cds : AppCDSState) : List Event → Except Exc Bool → AppCDSState → Prop
  | preambleThrew {P : List Event} {e : Exc} {c : AppCDSState}
      (hP : PreamblePath argv cds P (.error e) c) :
      TryPath format argv cds P (.error e) c
  | singleThrew {P S : List Event} {p : Bool} {e : Exc} {c c1 : AppCDSState}
      (hP : PreamblePath argv cds P (.ok p) c) (hS : SinglePath c S (.error e) c1) :
      TryPath format argv cds (P ++ S) (.error e) c1
  | handedOff {P S : List Event} {p b : Bool} {c c1 : AppCDSState}
      (hP : PreamblePath argv cds P (.ok p) c) (hS : SinglePath c S (.ok (some b)) c1) :
      TryPath format argv cds (P ++ S) (.ok b) c1
  | resolveThrew {P S R : List Event} {p : Bool} {e : Exc} {c c1 c2 : AppCDSState}
      (hP : PreamblePath argv cds P (.ok p) c) (hS : SinglePath c S (.ok none) c1)
      (hR : ResolvePath p c1 R (.error e) c2) :
      TryPath format argv cds (P ++ S ++ .GetAppCDSState c1 :: R) (.error e) c2
  | validateThrew {P S R V : List Event} {p : Bool} {e : Exc} {c c1 c2 c3 : AppCDSState}
      (hP : PreamblePath argv cds P (.ok p) c) (hS : SinglePath c S (.ok none) c1)
      (hR : ResolvePath p c1 R (.ok ()) c2) (hV : ValidatePath format c2 V (.error e) c3) :
      TryPath format argv cds
        (P ++ S ++ .GetAppCDSState c1 :: R ++ .GetAppCDSState c2 :: V) (.error e) c3
  | launched {P S R V : List Event} {p : Bool} {c c1 c2 c3 : AppCDSState} (o : Outcome Bool)
      (hP : PreamblePath argv cds P (.ok p) c) (hS : SinglePath c S (.ok none) c1)
      (hR : ResolvePath p c1 R (.ok ()) c2) (hV : ValidatePath format c2 V (.ok ()) c3) :
      TryPath format argv cds
        (P ++ S ++ .GetAppCDSState c1 :: R ++ .GetAppCDSState c2 :: V ++
          [.RunVM .USER_APP_LAUNCH o]) o.toExcept c3

/-- The paths of the `catch` clause and the final `return result`, given how the `try`
block ended: the entries added and how `start_launcher` ends. -/
inductive CatchPath : Except Exc Bool → List Event → Except Exc Bool → Prop
  | completed (b : Bool) : CatchPath (.ok b) [] (.ok b)
  | shown (m : String) :
      CatchPath (.error (.FileNotFoundException m)) [.ShowMessage m (.returned ())] (.ok false)
  | showThrew (m : String) (e : Exc) :
      CatchPath (.error (.FileNotFoundException m)) [.ShowMessage m (.threw e)] (.error e)
  | uncaught (m : String) : CatchPath (.error (.Exception m)) [] (.error (.Exception m))

/-- The paths of `start_launcher argv` from AppCDS state `cds`. -/
inductive RunPath (format : String → String → String) (argv : List String)
    (cds : AppCDSState) : List Event → Except Exc Bool → AppCDSState → Prop
  | platformThrew (e : Exc) :
      RunPath format argv cds [.Platform_GetInstance (.threw e)] (.error e) cds
  | tried {T C : List Event} {out res : Except Exc Bool} {c : AppCDSState}
      (hT : TryPath format argv cds T out c) (hC : CatchPath out C res) :
      RunPath format argv cds (.Platform_GetInstance (.returned ()) :: (T ++ C)) res c

/-- The paths `P`, each after a read of the AppCDS state `cds`. -/
def AfterRead {α : Type} (cds : AppCDSState)
    (P : List Event → Except Exc α → AppCDSState → Prop) :
    List Event → Except Exc α → AppCDSState → Prop :=
  fun evs out c => ∃ R, evs = .GetAppCDSState cds :: R ∧ P R out c

/-- A result `r`, reached from a state with trace `tr`, follows one of the paths `P`. -/
def Follows {σ α : Type} (P : List Event → Except Exc α → AppCDSState → Prop)
    (tr : List Event) (r : Res σ α) : Prop :=
  ∃ evs, r.state.trace = tr ++ evs ∧ P evs r.outcome r.state.FAppCDSState

/-- The result of running `x` from `s` satisfies `Q`. -/
structure Post {σ α : Type} (x : M σ α) (s : LauncherState σ) (Q : Res σ α → Prop) : Prop where
  out : Q (x s)

/-! ## A concrete world -/

/-- A small world to run the launcher in: whether another instance runs, the user
arguments and the process id the package and platform report, the AppCDS state the package
configuration asks for, the directories and files that exist, whether the child process
writes the cache file, the result of the VM, and an error for `CreateDirectory` to throw. -/
structure TestWorld where
  otherInstance : Bool
  args : List String
  pid : Int
  configured : AppCDSState
  dirs : List String
  files : List String
  childWritesCache : Bool
  vmResult : Bool
  createDirectoryError : Option Exc

/-- The answers of the collaborators in a `TestWorld`.  The package initialisation gives an
`Uninitialized` AppCDS state the configured value and leaves any other state as it is. -/
def testHandle : {α : Type} → Call α → AppCDSState → TestWorld → Outcome α × TestWorld
  | _, .Platform_GetInstance, _, w => (.returned (), w)
  | _, .Package_GetInstance, cds, w =>
      (.returned (if cds = .cdsUninitialized then w.configured else cds), w)
  | _, .Macros_Initialize, _, w => (.returned (), w)
  | _, .SetCommandLineArguments _, _, w => (.returned (), w)
  | _, .GetPackageAppDirectory, _, w => (.returned "app", w)
  | _, .SetCurrentDirectory _, _, w => (.returned (), w)
  | _, .CheckForSingleInstance, _, w => (.returned w.otherInstance, w)
  | _, .reactivateAnotherInstance, _, w => (.returned (), w)
  | _, .GetArgs, _, w => (.returned w.args, w)
  | _, .GetSingleInstanceProcessId, _, w => (.returned w.pid, w)
  | _, .RunVM _, _, w => (.returned w.vmResult, w)
  | _, .GetAppCDSCacheDirectory, _, w => (.returned "cache", w)
  | _, .DirectoryExists path, _, w => (.returned (decide (path ∈ w.dirs)), w)
  | _, .CreateDirectory path _, _, w =>
      match w.createDirectoryError with
      | some e => (.threw e, w)
      | none => (.returned (), { w with dirs := path :: w.dirs })
  | _, .GetAppCDSCacheFileName, _, w => (.returned "cache/app.jsa", w)
  | _, .FileExists path, _, w => (.returned (decide (path ∈ w.files)), w)
  | _, .DeleteFile path, _, w => (.returned (), { w with files := w.files.erase path })
  | _, .CreateProcess, _, w => (.returned (), w)
  | _, .GetModuleFileName, _, w => (.returned "launcher", w)
  | _, .Execute _ _ _, _, w =>
      (.returned true,
        if w.childWritesCache then { w with files := "cache/app.jsa" :: w.files } else w)
  | _, .Clear, _, w => (.returned (), w)
  | _, .Initialize, cds, w =>
      (.returned (if cds = .cdsUninitialized then w.configured else cds), w)
  | _, .GetMessage _, _, w => (.returned "cache file not found: ", w)
  | _, .ShowMessage _, _, w => (.returned (), w)

/-- The collaborators of the concrete world; `Format` appends the argument. -/
def testEnv : Env TestWorld where
  handle := testHandle
  Format := fun template argument => template ++ argument

/-- A first launch of an application configured for `Auto`: no other instance, no cache
directory, no cache file, and a child process that writes the cache file. -/
def freshWorld : TestWorld where
  otherInstance := false
  args := []
  pid := 0
  configured := .cdsAuto
  dirs := []
  files := []
  childWritesCache := true
  vmResult := true
  createDirectoryError := none


/-- A later launch: the cache directory and the cache file exist. -/
def warmWorld : TestWorld :=
  { freshWorld with dirs := ["cache"], files := ["cache/app.jsa"] }

/-- An application configured for `Enabled` whose cache file is missing. -/
def brokenWorld : TestWorld :=
  { freshWorld with configured := .cdsEnabled }


/-- Another instance of the application runs under process id 4242 and the launcher was
given a user argument; the application is configured for `Enabled`. -/
def busyWorld : TestWorld :=
  { freshWorld with
    otherInstance := true, args := ["document.txt"], pid := 4242, configured := .cdsEnabled }

/-- Another instance of the application runs and the launcher was given no user argument. -/
def idleWorld : TestWorld :=
  { freshWorld with otherInstance := true }

/-- A first launch in which the child process fails to write the cache file. -/
def stubbornWorld : TestWorld :=
  { freshWorld with childWritesCache := false }

/-- A first launch on a volume where the cache directory cannot be created. -/
def fullDiskWorld : TestWorld :=
  { freshWorld with createDirectoryError := some (.Exception "cannot create directory") }

@[simp] theorem pure_run {σ α : Type} (a : α) (s : LauncherState σ) :
    (pure a : M σ α) s = .ok a s := rfl

@[simp] theorem bind_run {σ α β : Type} (x : M σ α) (f : α → M σ β) (s : LauncherState σ) :
    (x >>= f) s = match x s with
      | .ok a s1 => f a s1
      | .throw e s1 => .throw e s1 := rfl

theorem scanArguments_run {σ : Type} (argv : List String) (p : Bool) (s : LauncherState σ) :
    scanArguments argv p s =
      .ok (scanParent argv p)
        { s with FAppCDSState := scanState argv s.FAppCDSState,
                 trace := s.trace ++ scanTrace argv } := by
  induction argv generalizing p s with
  | nil => simp [scanArguments, scanParent, scanState, scanTrace]
  | cons a rest ih =>
    simp only [scanArguments, scanParent, scanState, scanTrace]
    split
    · simp [ih, SetAppCDSState]
    · split
      · simp [ih, SetAppCDSState]
      · split <;> simp [ih]

/-! ## Stepping through a computation -/

theorem post_pure {σ α : Type} {a : α} {s : LauncherState σ} {Q : Res σ α → Prop}
    (h : Q (.ok a s)) : Post (pure a) s Q := ⟨h⟩

theorem post_raise {σ α : Type} {e : Exc} {s : LauncherState σ} {Q : Res σ α → Prop}
    (h : Q (.throw e s)) : Post (raise e) s Q := ⟨h⟩

theorem post_bind {σ α β : Type} {x : M σ α} {f : α → M σ β} {s : LauncherState σ}
    {Q : Res σ β → Prop}
    (h : Post x s (fun r => match r with
      | .ok a s1 => Post (f a) s1 Q
      | .throw e s1 => Q (.throw e s1))) : Post (x >>= f) s Q := by
  obtain ⟨h⟩ := h
  constructor
  rw [bind_run]
  cases hx : x s with
  | ok a s1 => rw [hx] at h; exact h.out
  | throw e s1 => rw [hx] at h; exact h

theorem post_call {σ α : Type} {env : Env σ} {c : Call α} {cds : AppCDSState} {w : σ}
    {tr acc : List Event} {Q : Res σ α → Prop}
    (hok : ∀ a w1, Q (.ok a ⟨cds, w1, tr ++ (acc ++ [c.event (.returned a)])⟩))
    (hthrow : ∀ e w1, Q (.throw e ⟨cds, w1, tr ++ (acc ++ [c.event (.threw e)])⟩)) :
    Post (call env c) ⟨cds, w, tr ++ acc⟩ Q := by
  constructor
  unfold call
  split
  · simpa only [List.append_assoc] using hok _ _
  · simpa only [List.append_assoc] using hthrow _ _

theorem post_call_bind {σ α β : Type} {env : Env σ} {c : Call α} {f : α → M σ β}
    {cds : AppCDSState} {w : σ} {tr acc : List Event} {Q : Res σ β → Prop}
    (hok : ∀ a w1, Post (f a) ⟨cds, w1, tr ++ (acc ++ [c.event (.returned a)])⟩ Q)
    (hthrow : ∀ e w1, Q (.throw e ⟨cds, w1, tr ++ (acc ++ [c.event (.threw e)])⟩)) :
    Post (call env c >>= f) ⟨cds, w, tr ++ acc⟩ Q :=
  post_bind (post_call hok hthrow)

theorem post_packageInit {σ : Type} {env : Env σ} {c : Call AppCDSState}
    {cds : AppCDSState} {w : σ} {tr acc : List Event} {Q : Res σ Unit → Prop}
    (hok : ∀ a w1, Q (.ok () ⟨a, w1, tr ++ (acc ++ [c.event (.returned a)])⟩))
    (hthrow : ∀ e w1, Q (.throw e ⟨cds, w1, tr ++ (acc ++ [c.event (.threw e)])⟩)) :
    Post (packageInit env c) ⟨cds, w, tr ++ acc⟩ Q := by
  constructor
  unfold packageInit call
  split <;> rename_i h <;> split at h <;> cases h
  · simpa only [List.append_assoc] using hok _ _
  · simpa only [List.append_assoc] using hthrow _ _

theorem post_packageInit_bind {σ β : Type} {env : Env σ} {c : Call AppCDSState}
    {f : Unit → M σ β} {cds : AppCDSState} {w : σ} {tr acc : List Event}
    {Q : Res σ β → Prop}
    (hok : ∀ a w1, Post (f ()) ⟨a, w1, tr ++ (acc ++ [c.event (.returned a)])⟩ Q)
    (hthrow : ∀ e w1, Q (.throw e ⟨cds, w1, tr ++ (acc ++ [c.event (.threw e)])⟩)) :
    Post (packageInit env c >>= f) ⟨cds, w, tr ++ acc⟩ Q :=
  post_bind (post_packageInit hok hthrow)

theorem post_set_bind {σ β : Type} {value cds : AppCDSState} {w : σ} {tr acc : List Event}
    {f : Unit → M σ β} {Q : Res σ β → Prop}
    (h : Post (f ()) ⟨value, w, tr ++ (acc ++ [.SetAppCDSState value])⟩ Q) :
    Post (SetAppCDSState value >>= f) ⟨cds, w, tr ++ acc⟩ Q := by
  refine post_bind ⟨?_⟩
  simpa only [SetAppCDSState, List.append_assoc] using h

theorem post_get_bind {σ β : Type} {cds : AppCDSState} {w : σ} {tr acc : List Event}
    {f : AppCDSState → M σ β} {Q : Res σ β → Prop}
    (h : Post (f cds) ⟨cds, w, tr ++ (acc ++ [.GetAppCDSState cds])⟩ Q) :
    Post (GetAppCDSState >>= f) ⟨cds, w, tr ++ acc⟩ Q := by
  refine post_bind ⟨?_⟩
  simpa only [GetAppCDSState, List.append_assoc] using h

theorem post_scan_bind {σ β : Type} {argv : List String} {p : Bool} {f : Bool → M σ β}
    {cds : AppCDSState} {w : σ} {tr acc : List Event} {Q : Res σ β → Prop}
    (h : Post (f (scanParent argv p)) ⟨scanState argv cds, w, tr ++ (acc ++ scanTrace argv)⟩ Q) :
    Post (scanArguments argv p >>= f) ⟨cds, w, tr ++ acc⟩ Q := by
  refine post_bind ⟨?_⟩
  rw [scanArguments_run]
  simpa only [List.append_assoc] using h

theorem post_ite {σ α : Type} {c : Prop} [Decidable c] {x y : M σ α} {s : LauncherState σ}
    {Q : Res σ α → Prop} (ht : c → Post x s Q) (he : ¬c → Post y s Q) :
    Post (if c then x else y) s Q := by
  by_cases h : c
  · simpa [h] using ht h
  · simpa [h] using he h

theorem follows_start {σ α : Type} {x : M σ α} {cds : AppCDSState} {w : σ} {tr : List Event}
    {P : List Event → Except Exc α → AppCDSState → Prop}
    (h : Post x ⟨cds, w, tr ++ []⟩ (Follows P tr)) : Follows P tr (x ⟨cds, w, tr⟩) := by
  simpa only [List.append_nil] using h.out

theorem follows_leaf {σ α : Type} {r : Res σ α} {tr evs : List Event}
    {P : List Event → Except Exc α → AppCDSState → Prop}
    (ht : r.state.trace = tr ++ evs) (h : P evs r.outcome r.state.FAppCDSState) :
    Follows P tr r := ⟨evs, ht, h⟩

/-! ## Soundness of the paths -/

section
attribute [local irreducible] call packageInit scanArguments SetAppCDSState GetAppCDSState raise
  M.bind

theorem preamble_follows {σ : Type} (env : Env σ) (argv : List String) (cds : AppCDSState)
    (w : σ) (tr : List Event) :
    Follows (PreamblePath argv cds) tr (preamble env argv ⟨cds, w, tr⟩) := by
  apply follows_start
  repeat' (first
    | refine post_call_bind (fun _ _ => ?_) (fun _ _ => ?_)
    | apply post_pure
    | refine post_packageInit_bind (fun _ _ => ?_) (fun _ _ => ?_)
    | apply post_scan_bind)
  all_goals (
    refine follows_leaf rfl ?_
    simp only [List.nil_append, List.append_assoc, List.singleton_append, List.cons_append]
    constructor)

theorem singleInstance_follows {σ : Type} (env : Env σ) (cds : AppCDSState) (w : σ)
    (tr : List Event) :
    Follows (SinglePath cds) tr (singleInstance env ⟨cds, w, tr⟩) := by
  apply follows_start
  repeat' (first
    | refine post_call_bind (fun _ _ => ?_) (fun _ _ => ?_)
    | apply post_pure
    | refine post_ite (fun _ => ?_) (fun _ => ?_)
    | refine post_call (fun _ _ => ?_) (fun _ _ => ?_))
  all_goals (
    refine follows_leaf rfl ?_
    try simp only [gt_iff_lt, List.length_pos, not_lt, Nat.le_zero_eq, List.length_eq_zero,
      ne_eq, not_not, Bool.not_eq_true] at *
    subst_vars
    constructor <;> assumption)

theorem resolveCache_follows {σ : Type} (env : Env σ) (p : Bool) (cds : AppCDSState) (w : σ)
    (tr : List Event) :
    Follows (AfterRead cds (ResolvePath p cds)) tr (resolveCache env p ⟨cds, w, tr⟩) := by
  apply follows_start
  cases cds <;>
  repeat' (first
    | refine post_call_bind (fun _ _ => ?_) (fun _ _ => ?_)
    | apply post_pure
    | refine post_ite (fun _ => ?_) (fun _ => ?_)
    | refine post_call (fun _ _ => ?_) (fun _ _ => ?_)
    | apply post_get_bind
    | apply post_set_bind
    | refine post_packageInit (fun _ _ => ?_) (fun _ _ => ?_))
  all_goals (
    refine follows_leaf rfl ⟨_, rfl, ?_⟩
    try simp only [Bool.not_eq_true, Bool.not_eq_false] at *
    subst_vars
    constructor)

theorem validateCache_follows {σ : Type} (env : Env σ) (cds : AppCDSState) (w : σ)
    (tr : List Event) :
    Follows (AfterRead cds (ValidatePath env.Format cds)) tr
      (validateCache env ⟨cds, w, tr⟩) := by
  apply follows_start
  cases cds <;>
  repeat' (first
    | refine post_call_bind (fun _ _ => ?_) (fun _ _ => ?_)
    | apply post_pure
    | apply post_raise
    | refine post_ite (fun _ => ?_) (fun _ => ?_)
    | refine post_call (fun _ _ => ?_) (fun _ _ => ?_)
    | apply post_get_bind)
  all_goals (
    refine follows_leaf rfl ⟨_, rfl, ?_⟩
    try simp only [Bool.not_eq_true, Bool.not_eq_false] at *
    subst_vars
    constructor <;> simp)

end

theorem call_cases {σ α : Type} (env : Env σ) (c : Call α) (cds : AppCDSState) (w : σ)
    (tr : List Event) :
    (∃ a w1, call env c ⟨cds, w, tr⟩ = .ok a ⟨cds, w1, tr ++ [c.event (.returned a)]⟩) ∨
    (∃ e w1, call env c ⟨cds, w, tr⟩ = .throw e ⟨cds, w1, tr ++ [c.event (.threw e)]⟩) := by
  unfold call
  split
  · exact Or.inl ⟨_, _, rfl⟩
  · exact Or.inr ⟨_, _, rfl⟩

theorem follows_ok {σ α : Type} {P : List Event → Except Exc α → AppCDSState → Prop}
    {tr : List Event} {r : Res σ α} {a : α} {s : LauncherState σ}
    (h : Follows P tr r) (hr : r = .ok a s) :
    ∃ evs, s.trace = tr ++ evs ∧ P evs (.ok a) s.FAppCDSState := by
  subst hr
  exact h

theorem follows_throw {σ α : Type} {P : List Event → Except Exc α → AppCDSState → Prop}
    {tr : List Event} {r : Res σ α} {e : Exc} {s : LauncherState σ}
    (h : Follows P tr r) (hr : r = .throw e s) :
    ∃ evs, s.trace = tr ++ evs ∧ P evs (.error e) s.FAppCDSState := by
  subst hr
  exact h

theorem tryBlock_follows {σ : Type} (env : Env σ) (argv : List String) (cds : AppCDSState)
    (w : σ) (tr : List Event) :
    Follows (TryPath env.Format argv cds) tr (tryBlock env argv ⟨cds, w, tr⟩) := by
  simp only [tryBlock, bind_run]
  have hP := preamble_follows env argv cds w tr
  cases h1 : preamble env argv ⟨cds, w, tr⟩ with
  | throw e s1 =>
    obtain ⟨P, hP1, hP2⟩ := follows_throw hP h1
    exact ⟨P, hP1, .preambleThrew hP2⟩
  | ok p s1 =>
    obtain ⟨P, hP1, hP2⟩ := follows_ok hP h1
    obtain ⟨c1, w1, tr1⟩ := s1
    simp only at hP1 hP2 ⊢
    subst hP1
    have hS := singleInstance_follows env c1 w1 (tr ++ P)
    cases h2 : singleInstance env ⟨c1, w1, tr ++ P⟩ with
    | throw e s2 =>
      obtain ⟨S, hS1, hS2⟩ := follows_throw hS h2
      exact ⟨P ++ S, by simp [Res.state, hS1], .singleThrew hP2 hS2⟩
    | ok r s2 =>
      obtain ⟨S, hS1, hS2⟩ := follows_ok hS h2
      obtain ⟨c2, w2, tr2⟩ := s2
      simp only at hS1 hS2 ⊢
      subst hS1
      cases r with
      | some b => exact ⟨P ++ S, by simp [Res.state], .handedOff hP2 hS2⟩
      | none =>
        simp only [bind_run]
        have hR := resolveCache_follows env p c2 w2 (tr ++ P ++ S)
        cases h3 : resolveCache env p ⟨c2, w2, tr ++ P ++ S⟩ with
        | throw e s3 =>
          obtain ⟨R, hR1, R1, rfl, hR2⟩ := follows_throw hR h3
          simp only [h3]
          exact ⟨P ++ S ++ .GetAppCDSState c2 :: R1, by simp [Res.state, hR1],
            .resolveThrew hP2 hS2 hR2⟩
        | ok u s3 =>
          obtain ⟨R, hR1, R1, rfl, hR2⟩ := follows_ok hR h3
          obtain ⟨c3, w3, tr3⟩ := s3
          simp only at hR1 hR2
          subst hR1
          simp only [h3]
          have hV := validateCache_follows env c3 w3 (tr ++ P ++ S ++ .GetAppCDSState c2 :: R1)
          cases h4 : validateCache env ⟨c3, w3, tr ++ P ++ S ++ .GetAppCDSState c2 :: R1⟩ with
          | throw e s4 =>
            obtain ⟨V, hV1, V1, rfl, hV2⟩ := follows_throw hV h4
            simp only [h4]
            exact ⟨P ++ S ++ .GetAppCDSState c2 :: R1 ++ .GetAppCDSState c3 :: V1,
              by simp [Res.state, hV1], .validateThrew hP2 hS2 hR2 hV2⟩
          | ok u s4 =>
            obtain ⟨V, hV1, V1, rfl, hV2⟩ := follows_ok hV h4
            obtain ⟨c4, w4, tr4⟩ := s4
            simp only at hV1 hV2
            subst hV1
            simp only [h4]
            rcases call_cases env (.RunVM .USER_APP_LAUNCH) c4 w4
              (tr ++ P ++ S ++ .GetAppCDSState c2 :: R1 ++ .GetAppCDSState c3 :: V1)
              with ⟨b, w5, h5⟩ | ⟨e, w5, h5⟩
            · rw [h5]
              exact ⟨P ++ S ++ .GetAppCDSState c2 :: R1 ++ .GetAppCDSState c3 :: V1 ++
                [.RunVM .USER_APP_LAUNCH (.returned b)], by simp [Res.state, Call.event],
                .launched (.returned b) hP2 hS2 hR2 hV2⟩
            · rw [h5]
              exact ⟨P ++ S ++ .GetAppCDSState c2 :: R1 ++ .GetAppCDSState c3 :: V1 ++
                [.RunVM .USER_APP_LAUNCH (.threw e)], by simp [Res.state, Call.event],
                .launched (.threw e) hP2 hS2 hR2 hV2⟩

theorem start_launcher_follows {σ : Type} (env : Env σ) (argv : List String)
    (cds : AppCDSState) (w : σ) (tr : List Event) :
    Follows (RunPath env.Format argv cds) tr (start_launcher env argv ⟨cds, w, tr⟩) := by
  unfold start_launcher
  rcases call_cases env .Platform_GetInstance cds w tr with ⟨u, w1, h⟩ | ⟨e, w1, h⟩
  · rw [h]
    simp only [Call.event]
    have hT := tryBlock_follows env argv cds w1 (tr ++ [.Platform_GetInstance (.returned ())])
    cases h2 : tryBlock env argv ⟨cds, w1, tr ++ [.Platform_GetInstance (.returned ())]⟩ with
    | ok b s2 =>
      obtain ⟨T, hT1, hT2⟩ := follows_ok hT h2
      exact ⟨.Platform_GetInstance (.returned ()) :: (T ++ []), by simp [Res.state, hT1],
        .tried hT2 (.completed b)⟩
    | throw e s2 =>
      obtain ⟨T, hT1, hT2⟩ := follows_throw hT h2
      obtain ⟨c2, w2, tr2⟩ := s2
      simp only at hT1 hT2
      subst hT1
      cases e with
      | Exception m =>
        exact ⟨.Platform_GetInstance (.returned ()) :: (T ++ []), by simp [Res.state],
          .tried hT2 (.uncaught m)⟩
      | FileNotFoundException m =>
        simp only
        rcases call_cases env (.ShowMessage m) c2 w2
          (tr ++ [.Platform_GetInstance (.returned ())] ++ T) with ⟨u, w3, h3⟩ | ⟨e, w3, h3⟩
        · rw [h3]
          exact ⟨.Platform_GetInstance (.returned ()) :: (T ++ [.ShowMessage m (.returned ())]),
            by simp [Res.state, Call.event], .tried hT2 (.shown m)⟩
        · rw [h3]
          exact ⟨.Platform_GetInstance (.returned ()) :: (T ++ [.ShowMessage m (.threw e)]),
            by simp [Res.state, Call.event], .tried hT2 (.showThrew m e)⟩
  · rw [h]
    exact ⟨[.Platform_GetInstance (.threw e)], rfl, .platformThrew e⟩

/-- Every run of `start_launcher` follows one of the listed paths: its trace, its outcome
and the AppCDS state it leaves are those of the path. -/
theorem launch_path {σ : Type} (env : Env σ) (argv : List String) (cds : AppCDSState)
    (w : σ) :
    RunPath env.Format argv cds (launch env argv cds w).state.trace
      (launch env argv cds w).outcome (launch env argv cds w).state.FAppCDSState := by
  obtain ⟨evs, h1, h2⟩ := start_launcher_follows env argv cds w []
  unfold launch
  rw [h1]
  exact h2

/-! ## Reading the trace of a path -/

@[simp] theorem mem_scanTrace (argv : List String) (e : Event) :
    e ∈ scanTrace argv ↔
      (e = .SetAppCDSState .cdsGenCache ∧ "-Xappcds:generatecache" ∈ argv) ∨
      (e = .SetAppCDSState .cdsDisabled ∧ "-Xappcds:off" ∈ argv) := by
  induction argv with
  | nil => simp [scanTrace]
  | cons a rest ih =>
    simp only [scanTrace]
    split
    · subst_vars
      simp only [List.mem_cons, ih]
      constructor
      · rintro (h | h | h) <;> simp_all
      · rintro (⟨h, _⟩ | ⟨h, h1⟩) <;> simp_all
    · split
      · subst_vars
        simp only [List.mem_cons, ih]
        constructor
        · rintro (h | h | h) <;> simp_all
        · rintro (⟨h, h1⟩ | ⟨h, _⟩) <;> simp_all
      · simp only [ih, List.mem_cons]
        constructor
        · rintro (h | h) <;> simp_all
        · rintro (⟨h, h1 | h1⟩ | ⟨h, h1 | h1⟩) <;> simp_all

theorem filterMap_scanTrace {β : Type} (f : Event → Option β)
    (h : ∀ c, f (.SetAppCDSState c) = none) (argv : List String) :
    (scanTrace argv).filterMap f = [] := by
  rw [List.filterMap_eq_nil_iff]
  intro e he
  rcases (mem_scanTrace argv e).1 he with ⟨rfl, _⟩ | ⟨rfl, _⟩ <;> exact h _

@[simp] theorem noThrow_nil : noThrow [] := by simp [noThrow]

@[simp] theorem noThrow_cons (e : Event) (l : List Event) :
    noThrow (e :: l) ↔ e.threw = false ∧ noThrow l := by simp [noThrow]

@[simp] theorem noThrow_append (l m : List Event) :
    noThrow (l ++ m) ↔ noThrow l ∧ noThrow m := by simp [noThrow, or_imp, forall_and]

@[simp] theorem noThrow_scanTrace (argv : List String) : noThrow (scanTrace argv) := by
  intro e he
  rcases (mem_scanTrace argv e).1 he with ⟨rfl, _⟩ | ⟨rfl, _⟩ <;> rfl

@[simp] theorem cdsReads_nil : cdsReads [] = [] := rfl
@[simp] theorem cdsReads_append (l m : List Event) :
    cdsReads (l ++ m) = cdsReads l ++ cdsReads m := by simp [cdsReads]
@[simp] theorem cdsReads_cons (e : Event) (l : List Event) :
    cdsReads (e :: l) = match e with
      | .GetAppCDSState c => c :: cdsReads l
      | _ => cdsReads l := by
  cases e <;> rfl
@[simp] theorem cdsReads_scanTrace (argv : List String) : cdsReads (scanTrace argv) = [] :=
  filterMap_scanTrace _ (fun _ => rfl) argv

@[simp] theorem runVMCalls_nil : runVMCalls [] = [] := rfl
@[simp] theorem runVMCalls_append (l m : List Event) :
    runVMCalls (l ++ m) = runVMCalls l ++ runVMCalls m := by simp [runVMCalls]
@[simp] theorem runVMCalls_cons (e : Event) (l : List Event) :
    runVMCalls (e :: l) = match e with
      | .RunVM mode _ => mode :: runVMCalls l
      | _ => runVMCalls l := by
  cases e <;> rfl
@[simp] theorem runVMCalls_scanTrace (argv : List String) : runVMCalls (scanTrace argv) = [] :=
  filterMap_scanTrace _ (fun _ => rfl) argv

@[simp] theorem shownMessages_nil : shownMessages [] = [] := rfl
@[simp] theorem shownMessages_append (l m : List Event) :
    shownMessages (l ++ m) = shownMessages l ++ shownMessages m := by simp [shownMessages]
@[simp] theorem shownMessages_cons (e : Event) (l : List Event) :
    shownMessages (e :: l) = match e with
      | .ShowMessage m _ => m :: shownMessages l
      | _ => shownMessages l := by
  cases e <;> rfl
@[simp] theorem shownMessages_scanTrace (argv : List String) :
    shownMessages (scanTrace argv) = [] :=
  filterMap_scanTrace _ (fun _ => rfl) argv

@[simp] theorem fileProbes_nil : fileProbes [] = [] := rfl
@[simp] theorem fileProbes_append (l m : List Event) :
    fileProbes (l ++ m) = fileProbes l ++ fileProbes m := by simp [fileProbes]
@[simp] theorem fileProbes_cons (e : Event) (l : List Event) :
    fileProbes (e :: l) = match e with
      | .FileExists _ (.returned b) => b :: fileProbes l
      | _ => fileProbes l := by
  cases e with
  | FileExists f o => cases o <;> rfl
  | _ => rfl

@[simp] theorem executions_nil : executions [] = [] := rfl
@[simp] theorem executions_append (l m : List Event) :
    executions (l ++ m) = executions l ++ executions m := by simp [executions]
@[simp] theorem executions_cons (e : Event) (l : List Event) :
    executions (e :: l) = match e with
      | .Execute app args wait _ => (app, args, wait) :: executions l
      | _ => executions l := by
  cases e <;> rfl
@[simp] theorem executions_scanTrace (argv : List String) : executions (scanTrace argv) = [] :=
  filterMap_scanTrace _ (fun _ => rfl) argv

@[simp] theorem singleInstanceChecks_nil : singleInstanceChecks [] = [] := rfl
@[simp] theorem singleInstanceChecks_append (l m : List Event) :
    singleInstanceChecks (l ++ m) = singleInstanceChecks l ++ singleInstanceChecks m := by
  simp [singleInstanceChecks]
@[simp] theorem singleInstanceChecks_cons (e : Event) (l : List Event) :
    singleInstanceChecks (e :: l) = match e with
      | .CheckForSingleInstance o => o :: singleInstanceChecks l
      | _ => singleInstanceChecks l := by
  cases e <;> rfl
@[simp] theorem singleInstanceChecks_scanTrace (argv : List String) :
    singleInstanceChecks (scanTrace argv) = [] :=
  filterMap_scanTrace _ (fun _ => rfl) argv

@[simp] theorem stateWrites_nil : stateWrites [] = [] := rfl
@[simp] theorem stateWrites_append (l m : List Event) :
    stateWrites (l ++ m) = stateWrites l ++ stateWrites m := by simp [stateWrites]
@[simp] theorem stateWrites_cons (e : Event) (l : List Event) :
    stateWrites (e :: l) = match e with
      | .SetAppCDSState c => c :: stateWrites l
      | _ => stateWrites l := by
  cases e <;> rfl

@[simp] theorem afterRead_nil : afterRead [] = [] := rfl

@[simp] theorem afterRead_cons (e : Event) (l : List Event) :
    afterRead (e :: l) = if e.isRead = true then l else afterRead l := by
  cases h : e.isRead <;> simp [afterRead, List.dropWhile_cons, h]

theorem afterRead_append (l m : List Event) (h : ∀ e ∈ l, e.isRead = false) :
    afterRead (l ++ m) = afterRead m := by
  induction l with
  | nil => rfl
  | cons a l ih =>
    have ha : a.isRead = false := h a (List.mem_cons_self _ _)
    simp only [List.cons_append, afterRead_cons, ha, Bool.false_eq_true, if_false]
    exact ih (fun e he => h e (List.mem_cons_of_mem _ he))

@[simp] theorem afterRead_scanTrace_append (argv : List String) (m : List Event) :
    afterRead (scanTrace argv ++ m) = afterRead m := by
  apply afterRead_append
  intro e he
  rcases (mem_scanTrace argv e).1 he with ⟨rfl, _⟩ | ⟨rfl, _⟩ <;> rfl

theorem takeWhile_noRead_append (l m : List Event) (c : AppCDSState)
    (h : ∀ e ∈ l, e.isRead = false) :
    (l ++ .GetAppCDSState c :: m).takeWhile (fun e => !e.isRead) = l := by
  induction l with
  | nil => simp [Event.isRead]
  | cons a l ih =>
    have ha : a.isRead = false := h a (List.mem_cons_self _ _)
    simp only [List.cons_append, List.takeWhile_cons, ha, Bool.not_false, if_true]
    rw [ih (fun e he => h e (List.mem_cons_of_mem _ he))]

theorem takeWhile_noRead (l : List Event) (h : ∀ e ∈ l, e.isRead = false) :
    l.takeWhile (fun e => !e.isRead) = l := by
  induction l with
  | nil => rfl
  | cons a l ih =>
    have ha : a.isRead = false := h a (List.mem_cons_self _ _)
    simp only [List.takeWhile_cons, ha, Bool.not_false, if_true]
    rw [ih (fun e he => h e (List.mem_cons_of_mem _ he))]

theorem PreamblePath.ok_inv {argv : List String} {cds c : AppCDSState} {P : List Event}
    {p : Bool} (h : PreamblePath argv cds P (.ok p) c) :
    p = scanParent argv true ∧
      ∃ dir, .Platform_GetInstance (.returned ()) :: P = headTrace argv c dir := by
  cases h
  exact ⟨rfl, _, rfl⟩

theorem PreamblePath.preamble_error_threw {argv : List String} {cds c : AppCDSState} {P : List
    Event}
    {e : Exc} (h : PreamblePath argv cds P (.error e) c) : ¬ noThrow P := by
  cases h <;> simp [Event.threw]

theorem PreamblePath.preamble_facts {argv : List String} {cds c : AppCDSState} {P : List Event}
    {out : Except Exc Bool} (h : PreamblePath argv cds P out c) :
    cdsReads P = [] ∧ runVMCalls P = [] ∧ shownMessages P = [] ∧ executions P = [] ∧
      (∀ e ∈ P, e.isSpawn = false) := by
  cases h <;> simp [Event.isSpawn, or_imp, forall_and]

theorem SinglePath.single_state_eq {c c1 : AppCDSState} {S : List Event}
    {out : Except Exc (Option Bool)} (h : SinglePath c S out c1) : c1 = c := by
  cases h <;> rfl

theorem SinglePath.single_error_threw {c c1 : AppCDSState} {S : List Event} {e : Exc}
    (h : SinglePath c S (.error e) c1) : ¬ noThrow S := by
  cases h <;> simp [Event.threw]

theorem SinglePath.none_inv {c c1 : AppCDSState} {S : List Event}
    (h : SinglePath c S (.ok none) c1) :
    S = [.CheckForSingleInstance (.returned false)] ∧ c1 = c := by
  cases h
  exact ⟨rfl, rfl⟩

theorem SinglePath.single_facts {c c1 : AppCDSState} {S : List Event}
    {out : Except Exc (Option Bool)} (h : SinglePath c S out c1) :
    cdsReads S = [] ∧ shownMessages S = [] ∧ executions S = [] ∧
      (∀ e ∈ S, e.isSpawn = false) ∧ (runVMCalls S).length ≤ 1 ∧
      .USER_APP_LAUNCH ∉ runVMCalls S := by
  cases h <;> simp [Event.isSpawn]

theorem ResolvePath.resolve_error_threw {p : Bool} {c c1 : AppCDSState} {R : List Event} {e : Exc}
    (h : ResolvePath p c R (.error e) c1) : ¬ noThrow R := by
  cases h <;> simp [Event.threw]

theorem ResolvePath.resolve_facts {p : Bool} {c c1 : AppCDSState} {R : List Event}
    {out : Except Exc Unit} (h : ResolvePath p c R out c1) :
    cdsReads R = [] ∧ runVMCalls R = [] ∧ shownMessages R = [] ∧
      (∀ e ∈ R, e.isRead = false) := by
  cases h <;> simp [Event.isRead]

theorem ResolvePath.no_spawn {p : Bool} {c c1 : AppCDSState} {R : List Event}
    {out : Except Exc Unit} (h : ResolvePath p c R out c1) (hc : p = false ∨ c ≠ .cdsAuto) :
    executions R = [] ∧ ∀ e ∈ R, e.isSpawn = false := by
  cases h <;> simp [Event.isSpawn] at hc ⊢

theorem ValidatePath.validate_state_eq {format : String → String → String} {c c1 : AppCDSState}
    {V : List Event} {out : Except Exc Unit} (h : ValidatePath format c V out c1) :
    c1 = c := by
  cases h <;> rfl

theorem ValidatePath.validate_facts {format : String → String → String} {c c1 : AppCDSState}
    {V : List Event} {out : Except Exc Unit} (h : ValidatePath format c V out c1) :
    cdsReads V = [] ∧ runVMCalls V = [] ∧ executions V = [] ∧
      (∀ e ∈ V, e.isRead = false) ∧ (∀ e ∈ V, e.isSpawn = false) ∧
      (shownMessages V).length ≤ 1 := by
  cases h <;> simp [Event.isRead, Event.isSpawn]

theorem ValidatePath.error_inv {format : String → String → String} {c c1 : AppCDSState}
    {V : List Event} {e : Exc} (h : ValidatePath format c V (.error e) c1)
    (hq : noThrow V) :
    (c = .cdsEnabled ∨ c = .cdsAuto) ∧ ∃ f template,
      V = [.GetAppCDSCacheFileName (.returned f), .FileExists f (.returned false),
        .GetMessage .APPCDS_CACHE_FILE_NOT_FOUND (.returned template)] ∧
      e = .FileNotFoundException (format template f) := by
  cases h <;> simp [Event.threw] at hq
  exact ⟨by assumption, _, _, rfl, rfl⟩

/-- The runs in which no call throws are of three kinds: a hand-off to another instance, a
launch of the VM, and a fatal cache validation. -/
theorem quiet_cases {format : String → String → String} {argv : List String}
    {cds c1 : AppCDSState} {tr : List Event} {out : Except Exc Bool}
    (hp : RunPath format argv cds tr out c1) (hq : noThrow tr) :
    (∃ c dir S b, SinglePath c S (.ok (some b)) c ∧ tr = headTrace argv c dir ++ S ∧
      out = .ok b ∧ c1 = c) ∨
    (∃ c dir R c2 V r, ResolvePath (scanParent argv true) c R (.ok ()) c2 ∧
      ValidatePath format c2 V (.ok ()) c2 ∧
      tr = bodyTrace argv c dir R c2 (V ++ [.RunVM .USER_APP_LAUNCH (.returned r)]) ∧
      out = .ok r ∧ c1 = c2) ∨
    (∃ c dir R c2 f template, ResolvePath (scanParent argv true) c R (.ok ()) c2 ∧
      (c2 = .cdsEnabled ∨ c2 = .cdsAuto) ∧
      tr = bodyTrace argv c dir R c2 [.GetAppCDSCacheFileName (.returned f),
          .FileExists f (.returned false),
          .GetMessage .APPCDS_CACHE_FILE_NOT_FOUND (.returned template),
          .ShowMessage (format template f) (.returned ())] ∧
      out = .ok false ∧ c1 = c2) := by
  cases hp with
  | platformThrew e => simp [Event.threw] at hq
  | tried hT hC =>
    simp only [noThrow_cons, noThrow_append] at hq
    obtain ⟨-, hqT, hqC⟩ := hq
    cases hT with
    | preambleThrew hP => exact absurd hqT hP.preamble_error_threw
    | singleThrew hP hS =>
      simp only [noThrow_append] at hqT
      exact absurd hqT.2 hS.single_error_threw
    | handedOff hP hS =>
      obtain ⟨-, dir, hd⟩ := hP.ok_inv
      have hc := hS.single_state_eq
      subst hc
      cases hC
      refine Or.inl ⟨_, dir, _, _, hS, ?_, rfl, rfl⟩
      rw [← hd]
      simp
    | resolveThrew hP hS hR =>
      simp only [noThrow_append, noThrow_cons] at hqT
      exact absurd hqT.2.2 hR.resolve_error_threw
    | validateThrew hP hS hR hV =>
      obtain ⟨hp, dir, hd⟩ := hP.ok_inv
      obtain ⟨rfl, rfl⟩ := hS.none_inv
      have hc := hV.validate_state_eq
      subst hc hp
      simp only [noThrow_append, noThrow_cons] at hqT
      obtain ⟨hc2, f, template, rfl, rfl⟩ := hV.error_inv hqT.2.2
      cases hC with
      | showThrew m e => simp [Event.threw] at hqC
      | shown m =>
        refine Or.inr (Or.inr ⟨_, dir, _, _, f, template, hR, hc2, ?_, rfl, rfl⟩)
        rw [bodyTrace, ← hd]
        simp
    | launched o hP hS hR hV =>
      obtain ⟨hp, dir, hd⟩ := hP.ok_inv
      obtain ⟨rfl, rfl⟩ := hS.none_inv
      have hc := hV.validate_state_eq
      subst hc hp
      cases o with
      | threw e => simp [Event.threw] at hqT
      | returned r =>
        cases hC
        refine Or.inr (Or.inl ⟨_, dir, _, _, _, r, hR, hV, ?_, rfl, rfl⟩)
        rw [bodyTrace, ← hd]
        simp

@[simp] theorem noThrow_headTrace (argv : List String) (c : AppCDSState) (dir : String) :
    noThrow (headTrace argv c dir) := by
  simp [headTrace, Event.threw]

@[simp] theorem cdsReads_headTrace (argv : List String) (c : AppCDSState) (dir : String) :
    cdsReads (headTrace argv c dir) = [] := by
  simp [headTrace]

@[simp] theorem runVMCalls_headTrace (argv : List String) (c : AppCDSState) (dir : String) :
    runVMCalls (headTrace argv c dir) = [] := by
  simp [headTrace]

@[simp] theorem shownMessages_headTrace (argv : List String) (c : AppCDSState)
    (dir : String) : shownMessages (headTrace argv c dir) = [] := by
  simp [headTrace]

@[simp] theorem executions_headTrace (argv : List String) (c : AppCDSState) (dir : String) :
    executions (headTrace argv c dir) = [] := by
  simp [headTrace]

@[simp] theorem singleInstanceChecks_headTrace (argv : List String) (c : AppCDSState)
    (dir : String) : singleInstanceChecks (headTrace argv c dir) = [] := by
  simp [headTrace]

@[simp] theorem stateWrites_headTrace (argv : List String) (c : AppCDSState) (dir : String) :
    stateWrites (headTrace argv c dir) = stateWrites (scanTrace argv) := by
  simp [headTrace]

@[simp] theorem afterRead_headTrace_append (argv : List String) (c : AppCDSState)
    (dir : String) (m : List Event) :
    afterRead (headTrace argv c dir ++ m) = afterRead m := by
  simp [headTrace, Event.isRead]

theorem headTrace_no_effect (argv : List String) (c : AppCDSState) (dir : String) :
    ∀ e ∈ headTrace argv c dir, e.isCacheEffect = false ∧ e.isSpawn = false := by
  intro e he
  simp only [headTrace, List.mem_cons, List.mem_append, mem_scanTrace, List.mem_singleton,
    List.not_mem_nil, or_false] at he
  rcases he with rfl | (⟨rfl, _⟩ | ⟨rfl, _⟩) | rfl | rfl | rfl | rfl | rfl <;> exact ⟨rfl, rfl⟩


theorem ResolvePath.resolve_kind {p : Bool} {c c1 : AppCDSState} {R : List Event}
    {out : Except Exc Unit} (h : ResolvePath p c R out c1) :
    ∀ e ∈ R, e.inResolution = true := by
  cases h <;> simp [Event.inResolution]

theorem ResolvePath.resolve_not_mem {p : Bool} {c c1 : AppCDSState} {R : List Event}
    {out : Except Exc Unit} (h : ResolvePath p c R out c1) {e : Event}
    (he : e.inResolution = false) : (e ∈ R) = False :=
  eq_false (fun hm => by simp [h.resolve_kind e hm] at he)

theorem ValidatePath.validate_kind {format : String → String → String} {c c1 : AppCDSState}
    {V : List Event} {out : Except Exc Unit} (h : ValidatePath format c V out c1) :
    ∀ e ∈ V, e.inValidation = true := by
  cases h <;> simp [Event.inValidation]

theorem ValidatePath.validate_not_mem {format : String → String → String} {c c1 : AppCDSState}
    {V : List Event} {out : Except Exc Unit} (h : ValidatePath format c V out c1) {e : Event}
    (he : e.inValidation = false) : (e ∈ V) = False :=
  eq_false (fun hm => by simp [h.validate_kind e hm] at he)

/-- C1. Return contract of `start_launcher`: in every run in which no collaborator call
throws, `start_launcher` returns a boolean, and it returns `true` if and only if either
another instance was detected and no VM was launched (the user arguments were empty or the
single-instance process id was 0), or `RunVM` was invoked, in either launch mode, and
returned `true`.  In every other case, the fatal cache validation and a `RunVM` that
returns `false` among them, it returns `false`. -/
theorem start_launcher_return_contract {σ : Type} (env : Env σ) (argv : List String)
    (cds : AppCDSState) (w : σ) (hq : noThrow (launch env argv cds w).state.trace) :
    ∃ b, (launch env argv cds w).outcome = .ok b ∧
      (b = true ↔
        (.CheckForSingleInstance (.returned true) ∈ (launch env argv cds w).state.trace ∧
          runVMCalls (launch env argv cds w).state.trace = [] ∧
          (.GetArgs (.returned []) ∈ (launch env argv cds w).state.trace ∨
            .GetSingleInstanceProcessId (.returned 0) ∈
              (launch env argv cds w).state.trace)) ∨
        ∃ mode, .RunVM mode (.returned true) ∈ (launch env argv cds w).state.trace) := by
  rcases quiet_cases (launch_path env argv cds w) hq with
    ⟨c, dir, S, b, hS, htr, hout, -⟩ | ⟨c, dir, R, c2, V, r, hR, hV, htr, hout, -⟩ |
    ⟨c, dir, R, c2, f, t, hR, hc2, htr, hout, -⟩
  · refine ⟨b, hout, ?_⟩
    rw [htr]
    cases hS <;> simp [headTrace]
  · refine ⟨r, hout, ?_⟩
    rw [htr]
    simp [bodyTrace, headTrace, hR.resolve_not_mem, hV.validate_not_mem, hR.resolve_facts,
        hV.validate_facts,
      Event.inResolution, Event.inValidation]
  · refine ⟨false, hout, ?_⟩
    rw [htr]
    simp [bodyTrace, headTrace, hR.resolve_not_mem, hR.resolve_facts, Event.inResolution]


theorem ResolvePath.resolve_noRead {p : Bool} {c c1 : AppCDSState} {R : List Event}
    {out : Except Exc Unit} (h : ResolvePath p c R out c1) : ∀ e ∈ R, e.isRead = false :=
  h.resolve_facts.2.2.2

theorem bodyTrace_reads (argv : List String) (c : AppCDSState) (dir : String)
    (c2 : AppCDSState) (X : List Event) {R : List Event} (hR : ∀ e ∈ R, e.isRead = false) :
    stateAtResolution (bodyTrace argv c dir R c2 X) = some c ∧
    stateAtValidation (bodyTrace argv c dir R c2 X) = some c2 ∧
    resolutionTrace (bodyTrace argv c dir R c2 X) = R ∧
    validationTrace (bodyTrace argv c dir R c2 X) = X := by
  have h1 : cdsReads R = [] := by
    rw [cdsReads, List.filterMap_eq_nil_iff]
    intro e he
    have := hR e he
    cases e <;> simp_all [Event.isRead]
  refine ⟨?_, ?_, ?_, ?_⟩
  · simp [stateAtResolution, bodyTrace]
  · simp [stateAtValidation, bodyTrace, h1]
  · simp only [resolutionTrace, bodyTrace, afterRead_headTrace_append, afterRead_cons]
    rw [if_neg (by simp [Event.isRead]),
      if_pos (show (Event.GetAppCDSState c).isRead = true from rfl)]
    exact takeWhile_noRead_append _ _ _ hR
  · simp only [validationTrace, bodyTrace, afterRead_headTrace_append, afterRead_cons]
    rw [if_neg (by simp [Event.isRead]),
      if_pos (show (Event.GetAppCDSState c).isRead = true from rfl), afterRead_append _ _ hR,
      afterRead_cons, if_pos (show (Event.GetAppCDSState c2).isRead = true from rfl)]

theorem headTrace_reads (argv : List String) (c : AppCDSState) (dir : String)
    (S : List Event) (hS : ∀ e ∈ S, e.isRead = false) :
    stateAtResolution (headTrace argv c dir ++ S) = none ∧
    stateAtValidation (headTrace argv c dir ++ S) = none ∧
    resolutionTrace (headTrace argv c dir ++ S) = [] ∧
    validationTrace (headTrace argv c dir ++ S) = [] := by
  have h1 : cdsReads S = [] := by
    rw [cdsReads, List.filterMap_eq_nil_iff]
    intro e he
    have := hS e he
    cases e <;> simp_all [Event.isRead]
  have h2 : afterRead S = [] := by
    have := afterRead_append S [] hS
    simpa using this
  simp [stateAtResolution, stateAtValidation, resolutionTrace, validationTrace, h1, h2]

theorem SinglePath.single_noRead {c c1 : AppCDSState} {S : List Event}
    {out : Except Exc (Option Bool)} (h : SinglePath c S out c1) :
    ∀ e ∈ S, e.isRead = false := by
  cases h <;> simp [Event.isRead]

/-- C2. Fatal cache validation: in every run in which no other instance is detected, the
AppCDS state at the validation step is `Enabled` or `Auto`, the existence check of the
validation step finds no cache file, and no collaborator call throws, `start_launcher`
never invokes `RunVM`, shows exactly one message, namely the `APPCDS_CACHE_FILE_NOT_FOUND`
template formatted with the cache file path, and returns `false`. -/
theorem fatal_cache_validation {σ : Type} (env : Env σ) (argv : List String)
    (cds : AppCDSState) (w : σ)
    (hno : .CheckForSingleInstance (.returned false) ∈ (launch env argv cds w).state.trace)
    (hst : stateAtValidation (launch env argv cds w).state.trace = some .cdsEnabled ∨
      stateAtValidation (launch env argv cds w).state.trace = some .cdsAuto)
    (hfile : ∃ f, .FileExists f (.returned false) ∈
      validationTrace (launch env argv cds w).state.trace)
    (hq : noThrow (launch env argv cds w).state.trace) :
    runVMCalls (launch env argv cds w).state.trace = [] ∧
    (∃ f template,
      .GetAppCDSCacheFileName (.returned f) ∈
        validationTrace (launch env argv cds w).state.trace ∧
      .GetMessage .APPCDS_CACHE_FILE_NOT_FOUND (.returned template) ∈
        validationTrace (launch env argv cds w).state.trace ∧
      shownMessages (launch env argv cds w).state.trace = [env.Format template f]) ∧
    (launch env argv cds w).outcome = .ok false := by
  rcases quiet_cases (launch_path env argv cds w) hq with
    ⟨c, dir, S, b, hS, htr, hout, -⟩ | ⟨c, dir, R, c2, V, r, hR, hV, htr, hout, -⟩ |
    ⟨c, dir, R, c2, f, t, hR, hc2, htr, hout, -⟩
  · rw [htr] at hno
    cases hS <;> simp [headTrace] at hno
  · rw [htr] at hst hfile
    obtain ⟨-, h2, -, h4⟩ := bodyTrace_reads argv c dir c2
      (V ++ [.RunVM .USER_APP_LAUNCH (.returned r)]) hR.resolve_noRead
    rw [h2] at hst
    rw [h4] at hfile
    cases hV <;> simp at hst hfile
  · rw [htr, hout]
    obtain ⟨-, -, -, h4⟩ := bodyTrace_reads argv c dir c2
      ([.GetAppCDSCacheFileName (.returned f), .FileExists f (.returned false),
        .GetMessage .APPCDS_CACHE_FILE_NOT_FOUND (.returned t),
        .ShowMessage (env.Format t f) (.returned ())]) hR.resolve_noRead
    rw [h4]
    refine ⟨?_, ⟨f, t, ?_, ?_, ?_⟩, rfl⟩
    · simp [bodyTrace, hR.resolve_facts]
    · simp
    · simp
    · simp [bodyTrace, hR.resolve_facts]

/-- C3. Normal launch: in every run in which no other instance is detected, the AppCDS
state after cache resolution is `Enabled` or `Auto`, the existence check of the validation
step finds the cache file, and no collaborator call throws, `RunVM` is invoked exactly
once, with launch mode `USER_APP_LAUNCH`, no message is shown, and `start_launcher`
returns the value `RunVM` returned. -/
theorem normal_launch {σ : Type} (env : Env σ) (argv : List String)
    (cds : AppCDSState) (w : σ)
    (hno : .CheckForSingleInstance (.returned false) ∈ (launch env argv cds w).state.trace)
    (hst : stateAtValidation (launch env argv cds w).state.trace = some .cdsEnabled ∨
      stateAtValidation (launch env argv cds w).state.trace = some .cdsAuto)
    (hfile : ∃ f, .FileExists f (.returned true) ∈
      validationTrace (launch env argv cds w).state.trace)
    (hq : noThrow (launch env argv cds w).state.trace) :
    runVMCalls (launch env argv cds w).state.trace = [.USER_APP_LAUNCH] ∧
    shownMessages (launch env argv cds w).state.trace = [] ∧
    ∃ r, .RunVM .USER_APP_LAUNCH (.returned r) ∈ (launch env argv cds w).state.trace ∧
      (launch env argv cds w).outcome = .ok r := by
  rcases quiet_cases (launch_path env argv cds w) hq with
    ⟨c, dir, S, b, hS, htr, hout, -⟩ | ⟨c, dir, R, c2, V, r, hR, hV, htr, hout, -⟩ |
    ⟨c, dir, R, c2, f, t, hR, hc2, htr, hout, -⟩
  · rw [htr] at hno
    cases hS <;> simp [headTrace] at hno
  · rw [htr] at hst
    obtain ⟨-, h2, -, -⟩ := bodyTrace_reads argv c dir c2
      (V ++ [.RunVM .USER_APP_LAUNCH (.returned r)]) hR.resolve_noRead
    rw [h2] at hst
    rw [htr, hout]
    refine ⟨?_, ?_, r, ?_, rfl⟩
    · simp [bodyTrace, hR.resolve_facts, hV.validate_facts]
    · cases hV <;> simp [bodyTrace, hR.resolve_facts] at hst ⊢
    · simp [bodyTrace]
  · rw [htr] at hfile
    obtain ⟨-, -, -, h4⟩ := bodyTrace_reads argv c dir c2
      ([.GetAppCDSCacheFileName (.returned f), .FileExists f (.returned false),
        .GetMessage .APPCDS_CACHE_FILE_NOT_FOUND (.returned t),
        .ShowMessage (env.Format t f) (.returned ())]) hR.resolve_noRead
    rw [h4] at hfile
    simp at hfile

theorem scanParent_eq (argv : List String) (p : Bool) :
    scanParent argv p = (p && decide ("-Xapp:child" ∉ argv)) := by
  induction argv generalizing p with
  | nil => simp [scanParent]
  | cons a rest ih =>
    simp only [scanParent]
    split
    · subst_vars; simp [ih]
    · split
      · subst_vars; simp [ih]
      · split
        · subst_vars; simp [ih]
        · rename_i h1 h2 h3
          have : ¬ "-Xapp:child" = a := fun h => h3 h.symm
          simp [ih, this]

theorem CatchPath.catch_facts {out res : Except Exc Bool} {C : List Event}
    (h : CatchPath out C res) :
    cdsReads C = [] ∧ runVMCalls C = [] ∧ executions C = [] ∧
      (∀ e ∈ C, e.isSpawn = false) ∧ (∀ e ∈ C, e.isRead = false) ∧
      singleInstanceChecks C = [] := by
  cases h <;> simp [Event.isSpawn, Event.isRead]

theorem TryPath.try_runVMCalls_le {format : String → String → String} {argv : List String}
    {cds c : AppCDSState} {T : List Event} {out : Except Exc Bool}
    (h : TryPath format argv cds T out c) : (runVMCalls T).length ≤ 1 := by
  cases h with
  | preambleThrew hP => simp [hP.preamble_facts]
  | singleThrew hP hS => simpa [hP.preamble_facts] using hS.single_facts.2.2.2.2.1
  | handedOff hP hS => simpa [hP.preamble_facts] using hS.single_facts.2.2.2.2.1
  | resolveThrew hP hS hR =>
    obtain ⟨rfl, -⟩ := hS.none_inv
    simp [hP.preamble_facts, hR.resolve_facts]
  | validateThrew hP hS hR hV =>
    obtain ⟨rfl, -⟩ := hS.none_inv
    simp [hP.preamble_facts, hR.resolve_facts, hV.validate_facts]
  | launched o hP hS hR hV =>
    obtain ⟨rfl, -⟩ := hS.none_inv
    simp [hP.preamble_facts, hR.resolve_facts, hV.validate_facts]

theorem TryPath.try_spawn_inv {format : String → String → String} {argv : List String}
    {cds c : AppCDSState} {T : List Event} {out : Except Exc Bool}
    (h : TryPath format argv cds T out c) {e : Event} (he : e ∈ T)
    (hs : e.isSpawn = true) :
    scanParent argv true = true ∧ (cdsReads T).head? = some .cdsAuto := by
  have key : ∀ {p : Bool} {c1 c2 : AppCDSState} {R : List Event} {o : Except Exc Unit},
      ResolvePath p c1 R o c2 → e ∈ R → p = true ∧ c1 = .cdsAuto := by
    intro p c1 c2 R o hR heR
    by_contra hne
    have hc : p = false ∨ c1 ≠ .cdsAuto := by
      by_cases hp : p = true
      · right; intro h1; exact hne ⟨hp, h1⟩
      · left; simpa using hp
    have := (hR.no_spawn hc).2 e heR
    simp [this] at hs
  cases h with
  | preambleThrew hP =>
    have := hP.preamble_facts.2.2.2.2 e he
    simp [this] at hs
  | singleThrew hP hS =>
    rcases List.mem_append.1 he with h1 | h1
    · have := hP.preamble_facts.2.2.2.2 e h1
      simp [this] at hs
    · have := hS.single_facts.2.2.2.1 e h1
      simp [this] at hs
  | handedOff hP hS =>
    rcases List.mem_append.1 he with h1 | h1
    · have := hP.preamble_facts.2.2.2.2 e h1
      simp [this] at hs
    · have := hS.single_facts.2.2.2.1 e h1
      simp [this] at hs
  | resolveThrew hP hS hR =>
    obtain ⟨rfl, rfl⟩ := hS.none_inv
    obtain ⟨rfl, -⟩ := hP.ok_inv
    simp only [List.mem_append, List.mem_cons, List.mem_singleton, List.not_mem_nil,
      or_false] at he
    rcases he with (h1 | rfl) | rfl | h1
    · have := hP.preamble_facts.2.2.2.2 e h1
      simp [this] at hs
    · simp [Event.isSpawn] at hs
    · simp [Event.isSpawn] at hs
    · obtain ⟨h2, rfl⟩ := key hR h1
      simp [hP.preamble_facts, h2]
  | validateThrew hP hS hR hV =>
    obtain ⟨rfl, rfl⟩ := hS.none_inv
    obtain ⟨rfl, -⟩ := hP.ok_inv
    simp only [List.mem_append, List.mem_cons, List.mem_singleton, List.not_mem_nil,
      or_false] at he
    rcases he with ((h1 | rfl) | rfl | h1) | rfl | h1
    · have := hP.preamble_facts.2.2.2.2 e h1
      simp [this] at hs
    · simp [Event.isSpawn] at hs
    · simp [Event.isSpawn] at hs
    · obtain ⟨h2, rfl⟩ := key hR h1
      simp [hP.preamble_facts, h2]
    · simp [Event.isSpawn] at hs
    · have := hV.validate_facts.2.2.2.2.1 e h1
      simp [this] at hs
  | launched o hP hS hR hV =>
    obtain ⟨rfl, rfl⟩ := hS.none_inv
    obtain ⟨rfl, -⟩ := hP.ok_inv
    simp only [List.mem_append, List.mem_cons, List.mem_singleton, List.not_mem_nil,
      or_false] at he
    rcases he with (((h1 | rfl) | rfl | h1) | rfl | h1) | rfl
    · have := hP.preamble_facts.2.2.2.2 e h1
      simp [this] at hs
    · simp [Event.isSpawn] at hs
    · simp [Event.isSpawn] at hs
    · obtain ⟨h2, rfl⟩ := key hR h1
      simp [hP.preamble_facts, h2]
    · simp [Event.isSpawn] at hs
    · have := hV.validate_facts.2.2.2.2.1 e h1
      simp [this] at hs
    · simp [Event.isSpawn] at hs

theorem RunPath.run_spawn_inv {format : String → String → String} {argv : List String}
    {cds c : AppCDSState} {tr : List Event} {out : Except Exc Bool}
    (h : RunPath format argv cds tr out c) {e : Event} (he : e ∈ tr)
    (hs : e.isSpawn = true) :
    scanParent argv true = true ∧ stateAtResolution tr = some .cdsAuto := by
  cases h with
  | platformThrew e1 =>
    simp only [List.mem_singleton] at he
    subst he
    simp [Event.isSpawn] at hs
  | tried hT hC =>
    simp only [List.mem_cons, List.mem_append] at he
    rcases he with rfl | h1 | h1
    · simp [Event.isSpawn] at hs
    · obtain ⟨h2, h3⟩ := hT.try_spawn_inv h1 hs
      refine ⟨h2, ?_⟩
      cases hr : cdsReads _ with
      | nil => rw [hr] at h3; simp at h3
      | cons a l =>
        rw [hr] at h3
        simp only [List.head?_cons, Option.some.injEq] at h3
        subst h3
        simp [stateAtResolution, hr]
    · have := hC.catch_facts.2.2.2.1 e h1
      simp [this] at hs

theorem RunPath.run_runVMCalls_le {format : String → String → String} {argv : List String}
    {cds c : AppCDSState} {tr : List Event} {out : Except Exc Bool}
    (h : RunPath format argv cds tr out c) : (runVMCalls tr).length ≤ 1 := by
  cases h with
  | platformThrew e => simp
  | tried hT hC => simpa [hC.catch_facts] using hT.try_runVMCalls_le

/-- C5. Recursion is bounded to depth one: for every argument vector that contains the
flag `-Xapp:child`, whatever the AppCDS state and whatever the collaborators answer or
throw, `start_launcher` never creates or executes a child process.  The arguments the
parent passes to its child, `-Xappcds:generatecache -Xapp:child`, are such a vector. -/
theorem child_never_spawns {σ : Type} (env : Env σ) (argv : List String)
    (cds : AppCDSState) (w : σ) (hchild : "-Xapp:child" ∈ argv) :
    ∀ e ∈ (launch env argv cds w).state.trace, e.isSpawn = false := by
  intro e he
  by_contra hs
  have hs1 : e.isSpawn = true := by simpa using hs
  have h := ((launch_path env argv cds w).run_spawn_inv he hs1).1
  simp [scanParent_eq, hchild] at h

/-- C17. Single VM launch: in every run, whatever the collaborators answer or throw,
`start_launcher` invokes `RunVM` at most once, hence with one launch mode only. -/
theorem runVM_at_most_once {σ : Type} (env : Env σ) (argv : List String)
    (cds : AppCDSState) (w : σ) :
    (runVMCalls (launch env argv cds w).state.trace).length ≤ 1 :=
  (launch_path env argv cds w).run_runVMCalls_le

/-- C18. Only the `Auto` state spawns: in every run in which the AppCDS state at cache
resolution is `Disabled`, `Enabled`, `GenerateCache` or `Uninitialized`, whatever the
process role and whatever the collaborators answer or throw, `start_launcher` never
creates or executes a child process. -/
theorem only_auto_spawns {σ : Type} (env : Env σ) (argv : List String)
    (cds : AppCDSState) (w : σ) (c : AppCDSState)
    (hst : stateAtResolution (launch env argv cds w).state.trace = some c)
    (hc : c ≠ .cdsAuto) :
    ∀ e ∈ (launch env argv cds w).state.trace, e.isSpawn = false := by
  intro e he
  by_contra hs
  have hs1 : e.isSpawn = true := by simpa using hs
  have h := ((launch_path env argv cds w).run_spawn_inv he hs1).2
  rw [hst] at h
  exact hc (Option.some.inj h)

/-! ## Runs in which another instance is detected -/

theorem PreamblePath.preamble_no_check {argv : List String} {cds c : AppCDSState} {P : List Event}
    {out : Except Exc Bool} (h : PreamblePath argv cds P out c) (o : Outcome Bool) :
    (Event.CheckForSingleInstance o ∈ P) = False := by
  cases h <;> simp

theorem CatchPath.catch_no_check {out res : Except Exc Bool} {C : List Event}
    (h : CatchPath out C res) (o : Outcome Bool) :
    (Event.CheckForSingleInstance o ∈ C) = False := by
  cases h <;> simp

/-- A run in which the single-instance check reports another instance consists of the
calls up to the check, a path of the single-instance block that starts with that answer,
and, when the block threw a `FileNotFoundException`, the message of the `catch` clause. -/
theorem handoff_cases {format : String → String → String} {argv : List String}
    {cds c1 : AppCDSState} {tr : List Event} {out : Except Exc Bool}
    (hp : RunPath format argv cds tr out c1)
    (hc : .CheckForSingleInstance (.returned true) ∈ tr) :
    ∃ c dir S so C, SinglePath c S so c ∧ tr = headTrace argv c dir ++ S ++ C ∧
      (C = [] ∨ ∃ m o, C = [.ShowMessage m o]) ∧
      (∀ b, so = .ok (some b) → out = .ok b) := by
  cases hp with
  | platformThrew e => simp at hc
  | @tried T C out0 res c0 hT hC =>
    cases hT with
    | preambleThrew hP => simp [hP.preamble_no_check, hC.catch_no_check] at hc
    | singleThrew hP hS =>
      obtain ⟨-, dir, hd⟩ := hP.ok_inv
      have h1 := hS.single_state_eq
      subst h1
      refine ⟨_, dir, _, _, C, hS, ?_, ?_, ?_⟩
      · rw [← hd]
        simp
      · cases hC with
        | shown m => exact Or.inr ⟨_, _, rfl⟩
        | showThrew m e => exact Or.inr ⟨_, _, rfl⟩
        | uncaught m => exact Or.inl rfl
      · intro b hb
        cases hb
    | handedOff hP hS =>
      obtain ⟨-, dir, hd⟩ := hP.ok_inv
      have h1 := hS.single_state_eq
      subst h1
      cases hC
      refine ⟨_, dir, _, _, [], hS, ?_, Or.inl rfl, ?_⟩
      · rw [← hd]
        simp
      · intro b hb
        cases hb
        rfl
    | resolveThrew hP hS hR =>
      obtain ⟨rfl, rfl⟩ := hS.none_inv
      simp [hP.preamble_no_check, hC.catch_no_check, hR.resolve_not_mem, Event.inResolution] at hc
    | validateThrew hP hS hR hV =>
      obtain ⟨rfl, rfl⟩ := hS.none_inv
      simp [hP.preamble_no_check, hC.catch_no_check, hR.resolve_not_mem, hV.validate_not_mem,
        Event.inResolution, Event.inValidation] at hc
    | launched o hP hS hR hV =>
      obtain ⟨rfl, rfl⟩ := hS.none_inv
      simp [hP.preamble_no_check, hC.catch_no_check, hR.resolve_not_mem, hV.validate_not_mem,
        Event.inResolution, Event.inValidation] at hc

theorem SinglePath.single_quiet {c c1 : AppCDSState} {S : List Event}
    {out : Except Exc (Option Bool)} (h : SinglePath c S out c1) :
    (∀ e ∈ S, e.isCacheEffect = false) ∧ stateWrites S = [] := by
  cases h <;> simp [Event.isCacheEffect]

/-- A run that ends in the single-instance block makes no call of the cache logic and
writes the AppCDS state only while it scans `argv`. -/
theorem handoff_quiet {c c1 : AppCDSState} {S C : List Event}
    {so : Except Exc (Option Bool)} (argv : List String) (dir : String)
    (hS : SinglePath c S so c1) (hC : C = [] ∨ ∃ m o, C = [.ShowMessage m o]) :
    (∀ e ∈ headTrace argv c dir ++ S ++ C, e.isCacheEffect = false) ∧
      stateWrites (headTrace argv c dir ++ S ++ C) = stateWrites (scanTrace argv) := by
  have hC1 : (∀ e ∈ C, e.isCacheEffect = false) ∧ stateWrites C = [] := by
    rcases hC with rfl | ⟨m, o, rfl⟩ <;> simp [Event.isCacheEffect]
  refine ⟨?_, by simp [hS.single_quiet.2, hC1.2]⟩
  intro e he
  rcases List.mem_append.1 he with h1 | h1
  · rcases List.mem_append.1 h1 with h2 | h2
    · exact (headTrace_no_effect argv c dir e h2).1
    · exact hS.single_quiet.1 e h2
  · exact hC1.1 e h1

@[simp] theorem mem_headTrace (argv : List String) (c : AppCDSState) (dir : String)
    (e : Event) :
    e ∈ headTrace argv c dir ↔
      e = .Platform_GetInstance (.returned ()) ∨ e ∈ scanTrace argv ∨
      e = .Package_GetInstance (.returned c) ∨ e = .Macros_Initialize (.returned ()) ∨
      e = .SetCommandLineArguments argv (.returned ()) ∨
      e = .GetPackageAppDirectory (.returned dir) ∨
      e = .SetCurrentDirectory dir (.returned ()) := by
  simp only [headTrace, List.mem_cons, List.mem_append, List.mem_singleton,
    List.not_mem_nil, or_false]

theorem isCacheEffect_headTrace (argv : List String) (c : AppCDSState) (dir : String) :
    ∀ e ∈ headTrace argv c dir, e.isCacheEffect = false :=
  fun e he => (headTrace_no_effect argv c dir e he).1

theorem SinglePath.without_vm_inv {c c1 : AppCDSState} {S : List Event}
    {so : Except Exc (Option Bool)} (h : SinglePath c S so c1)
    (hargs : .GetArgs (.returned []) ∈ S ∨ .GetSingleInstanceProcessId (.returned 0) ∈ S) :
    so = .ok (some true) ∧ .reactivateAnotherInstance (.returned ()) ∈ S ∧
      runVMCalls S = [] := by
  cases h <;> simp_all

theorem SinglePath.notification_inv {c c1 : AppCDSState} {S : List Event}
    {so : Except Exc (Option Bool)} (h : SinglePath c S so c1) {args : List String}
    {pid : Int} (hargs : .GetArgs (.returned args) ∈ S)
    (hpid : .GetSingleInstanceProcessId (.returned pid) ∈ S) (hnz : pid ≠ 0) :
    ∃ o, S = [.CheckForSingleInstance (.returned true),
        .reactivateAnotherInstance (.returned ()), .GetArgs (.returned args),
        .GetSingleInstanceProcessId (.returned pid),
        .RunVM .SINGLE_INSTANCE_NOTIFICATION_LAUNCH o] ∧
      ∀ r, o = .returned r → so = .ok (some r) := by
  cases h <;> simp_all

/-- C10. Hand-off of the launch without a VM: in every run in which another instance is
detected and either the user argument list is empty or the single-instance process id
is 0, whatever else the collaborators answer, `start_launcher` reactivates the other
instance, never invokes `RunVM`, makes no call of the cache logic, changes the AppCDS state
by nothing but the flags of `argv`, and returns `true`. -/
theorem handoff_without_vm {σ : Type} (env : Env σ) (argv : List String)
    (cds : AppCDSState) (w : σ)
    (hother : .CheckForSingleInstance (.returned true) ∈ (launch env argv cds w).state.trace)
    (hargs : .GetArgs (.returned []) ∈ (launch env argv cds w).state.trace ∨
      .GetSingleInstanceProcessId (.returned 0) ∈ (launch env argv cds w).state.trace) :
    .reactivateAnotherInstance (.returned ()) ∈ (launch env argv cds w).state.trace ∧
    runVMCalls (launch env argv cds w).state.trace = [] ∧
    (∀ e ∈ (launch env argv cds w).state.trace, e.isCacheEffect = false) ∧
    stateWrites (launch env argv cds w).state.trace = stateWrites (scanTrace argv) ∧
    (launch env argv cds w).outcome = .ok true := by
  obtain ⟨c, dir, S, so, C, hS, htr, hC, hout⟩ :=
    handoff_cases (launch_path env argv cds w) hother
  obtain ⟨hq1, hq2⟩ := handoff_quiet argv dir hS hC
  rw [← htr] at hq1 hq2
  rw [htr] at hargs
  have hargs1 : .GetArgs (.returned []) ∈ S ∨
      .GetSingleInstanceProcessId (.returned 0) ∈ S := by
    rcases hC with rfl | ⟨m, o, rfl⟩ <;> simpa using hargs
  obtain ⟨hso, hre, hvm⟩ := hS.without_vm_inv hargs1
  have hC1 : runVMCalls C = [] := by
    rcases hC with rfl | ⟨m, o, rfl⟩ <;> simp
  refine ⟨?_, ?_, hq1, hq2, hout true hso⟩
  · rw [htr]
    simp [hre]
  · rw [htr]
    simp [hvm, hC1]

/-- C9. Hand-off of the launch to the running instance: in every run in which another
instance is detected, the user argument list is not empty and the single-instance process
id is not 0, whatever else the collaborators answer, `start_launcher` reactivates the
other instance and then invokes `RunVM` exactly once, in mode
`SINGLE_INSTANCE_NOTIFICATION_LAUNCH`; it makes no call of the cache logic (no read of the
AppCDS state, no query of the cache directory or file, no directory creation, no file
deletion, no child process, no reset of the package), changes the AppCDS state by nothing
but the flags of `argv`, and when `RunVM` returns, `start_launcher` returns that value. -/
theorem handoff_notification {σ : Type} (env : Env σ) (argv : List String)
    (cds : AppCDSState) (w : σ) (args : List String) (pid : Int)
    (hother : .CheckForSingleInstance (.returned true) ∈ (launch env argv cds w).state.trace)
    (hargs : .GetArgs (.returned args) ∈ (launch env argv cds w).state.trace)
    (_hne : args ≠ [])
    (hpid : .GetSingleInstanceProcessId (.returned pid) ∈ (launch env argv cds w).state.trace)
    (hnz : pid ≠ 0) :
    runVMCalls (launch env argv cds w).state.trace = [.SINGLE_INSTANCE_NOTIFICATION_LAUNCH] ∧
    (∃ o pre post, (launch env argv cds w).state.trace =
        pre ++ [.reactivateAnotherInstance (.returned ()), .GetArgs (.returned args),
          .GetSingleInstanceProcessId (.returned pid),
          .RunVM .SINGLE_INSTANCE_NOTIFICATION_LAUNCH o] ++ post ∧
      ∀ r, o = .returned r → (launch env argv cds w).outcome = .ok r) ∧
    (∀ e ∈ (launch env argv cds w).state.trace, e.isCacheEffect = false) ∧
    stateWrites (launch env argv cds w).state.trace = stateWrites (scanTrace argv) := by
  obtain ⟨c, dir, S, so, C, hS, htr, hC, hout⟩ :=
    handoff_cases (launch_path env argv cds w) hother
  obtain ⟨hq1, hq2⟩ := handoff_quiet argv dir hS hC
  rw [← htr] at hq1 hq2
  rw [htr] at hargs hpid
  have hargs1 : .GetArgs (.returned args) ∈ S := by
    rcases hC with rfl | ⟨m, o, rfl⟩ <;> simpa using hargs
  have hpid1 : .GetSingleInstanceProcessId (.returned pid) ∈ S := by
    rcases hC with rfl | ⟨m, o, rfl⟩ <;> simpa using hpid
  obtain ⟨o, rfl, ho⟩ := hS.notification_inv hargs1 hpid1 hnz
  have hC1 : runVMCalls C = [] := by
    rcases hC with rfl | ⟨m, o, rfl⟩ <;> simp
  refine ⟨?_, ⟨o, headTrace argv c dir ++ [.CheckForSingleInstance (.returned true)], C,
    ?_, fun r hr => hout r (ho r hr)⟩, hq1, hq2⟩
  · rw [htr]
    simp [hC1]
  · rw [htr]
    simp

theorem singleInstanceChecks_eq_nil (l : List Event)
    (h : ∀ o, (Event.CheckForSingleInstance o ∈ l) = False) :
    singleInstanceChecks l = [] := by
  simp only [singleInstanceChecks, List.filterMap_eq_nil_iff]
  intro e he
  cases e <;> first | rfl | exact ((h _).mp he).elim

theorem ResolvePath.resolve_no_check {p : Bool} {c c1 : AppCDSState} {R : List Event}
    {out : Except Exc Unit} (h : ResolvePath p c R out c1) :
    singleInstanceChecks R = [] :=
  singleInstanceChecks_eq_nil R (fun _ => h.resolve_not_mem rfl)

theorem ValidatePath.validate_no_check {format : String → String → String} {c c1 : AppCDSState}
    {V : List Event} {out : Except Exc Unit} (h : ValidatePath format c V out c1) :
    singleInstanceChecks V = [] :=
  singleInstanceChecks_eq_nil V (fun _ => h.validate_not_mem rfl)

/-- C4, as stated, fails: a child-role launch (`-Xapp:child` in `argv`) performs the
single-instance check; here the check reports another instance, which is reactivated, and
the VM is launched in `SINGLE_INSTANCE_NOTIFICATION_LAUNCH` mode. -/
theorem child_checks_single_instance :
    "-Xapp:child" ∈ ["launcher", "-Xapp:child", "document.txt"] ∧
    singleInstanceChecks
        (launch testEnv ["launcher", "-Xapp:child", "document.txt"] .cdsUninitialized
            busyWorld).state.trace =
      [.returned true] ∧
    .reactivateAnotherInstance (.returned ()) ∈
      (launch testEnv ["launcher", "-Xapp:child", "document.txt"] .cdsUninitialized
          busyWorld).state.trace ∧
    runVMCalls
        (launch testEnv ["launcher", "-Xapp:child", "document.txt"] .cdsUninitialized
            busyWorld).state.trace =
      [.SINGLE_INSTANCE_NOTIFICATION_LAUNCH] := by
  decide

/-- C4, amended. Child role and the single-instance logic: for every `argv` that contains
`-Xapp:child` and every run in which no collaborator call throws, `start_launcher` performs
the single-instance check exactly once, as it does without the flag; it reactivates another
instance exactly when the check reports one, and it launches in
`SINGLE_INSTANCE_NOTIFICATION_LAUNCH` mode exactly when, moreover, the user argument list
is not empty and the single-instance process id is not 0. -/
theorem child_single_instance {σ : Type} (env : Env σ) (argv : List String)
    (cds : AppCDSState) (w : σ) (_hchild : "-Xapp:child" ∈ argv)
    (hq : noThrow (launch env argv cds w).state.trace) :
    ∃ b, singleInstanceChecks (launch env argv cds w).state.trace = [.returned b] ∧
      (.reactivateAnotherInstance (.returned ()) ∈ (launch env argv cds w).state.trace ↔
        b = true) ∧
      (.SINGLE_INSTANCE_NOTIFICATION_LAUNCH ∈ runVMCalls (launch env argv cds w).state.trace ↔
        b = true ∧ ∃ args pid,
          .GetArgs (.returned args) ∈ (launch env argv cds w).state.trace ∧ args ≠ [] ∧
          .GetSingleInstanceProcessId (.returned pid) ∈ (launch env argv cds w).state.trace ∧
          pid ≠ 0) := by
  rcases quiet_cases (launch_path env argv cds w) hq with
    ⟨c, dir, S, b, hS, htr, hout, -⟩ | ⟨c, dir, R, c2, V, r, hR, hV, htr, hout, -⟩ |
    ⟨c, dir, R, c2, f, t, hR, hc2, htr, hout, -⟩
  · refine ⟨true, ?_⟩
    rw [htr]
    cases hS with
    | noArgs => simp
    | noPid args h => simp
    | notified args h pid hp r => simp [h, hp]
  · refine ⟨false, ?_⟩
    rw [htr]
    simp [bodyTrace, hR.resolve_not_mem, hV.validate_not_mem, hR.resolve_facts,
      hV.validate_facts, hR.resolve_no_check, hV.validate_no_check, Event.inResolution,
          Event.inValidation]
  · refine ⟨false, ?_⟩
    rw [htr]
    simp [bodyTrace, hR.resolve_not_mem, hR.resolve_facts, hR.resolve_no_check, Event.inResolution]

/-! ## Runs that reach the launch of the application -/

theorem mem_runVMCalls {l : List Event} {mode : JvmLaunchType} {o : Outcome Bool}
    (h : .RunVM mode o ∈ l) : mode ∈ runVMCalls l := by
  simp only [runVMCalls, List.mem_filterMap]
  exact ⟨_, h, rfl⟩

theorem CatchPath.catch_shape {out res : Except Exc Bool} {C : List Event}
    (h : CatchPath out C res) : C = [] ∨ ∃ m o, C = [.ShowMessage m o] := by
  cases h with
  | completed b => exact Or.inl rfl
  | shown m => exact Or.inr ⟨_, _, rfl⟩
  | showThrew m e => exact Or.inr ⟨_, _, rfl⟩
  | uncaught m => exact Or.inl rfl

/-- A run that invokes `RunVM` in mode `USER_APP_LAUNCH` found no other instance and
completed the cache resolution and the validation; the call is the last of the `try`
block. -/
theorem user_launch_cases {format : String → String → String} {argv : List String}
    {cds c1 : AppCDSState} {tr : List Event} {out : Except Exc Bool} {o : Outcome Bool}
    (hp : RunPath format argv cds tr out c1) (hrun : .RunVM .USER_APP_LAUNCH o ∈ tr) :
    ∃ c dir R c2 V C, ResolvePath (scanParent argv true) c R (.ok ()) c2 ∧
      ValidatePath format c2 V (.ok ()) c2 ∧
      tr = bodyTrace argv c dir R c2 (V ++ [.RunVM .USER_APP_LAUNCH o]) ++ C ∧
      (C = [] ∨ ∃ m o1, C = [.ShowMessage m o1]) ∧ c1 = c2 ∧
      ∀ r, o = .returned r → out = .ok r := by
  have hm := mem_runVMCalls hrun
  cases hp with
  | platformThrew e => simp at hm
  | @tried T C out0 res c0 hT hC =>
    cases hT with
    | preambleThrew hP => simp [hP.preamble_facts, hC.catch_facts] at hm
    | singleThrew hP hS =>
      simp [hP.preamble_facts, hC.catch_facts, hS.single_facts.2.2.2.2.2] at hm
    | handedOff hP hS =>
      simp [hP.preamble_facts, hC.catch_facts, hS.single_facts.2.2.2.2.2] at hm
    | resolveThrew hP hS hR =>
      obtain ⟨rfl, rfl⟩ := hS.none_inv
      simp [hP.preamble_facts, hC.catch_facts, hR.resolve_facts] at hm
    | validateThrew hP hS hR hV =>
      obtain ⟨rfl, rfl⟩ := hS.none_inv
      simp [hP.preamble_facts, hC.catch_facts, hR.resolve_facts, hV.validate_facts] at hm
    | @launched P S R V p c c1 c2 c3 o1 hP hS hR hV =>
      obtain ⟨hpp, dir, hd⟩ := hP.ok_inv
      obtain ⟨rfl, rfl⟩ := hS.none_inv
      have hc := hV.validate_state_eq
      subst hc hpp
      have h1 : (Event.RunVM .USER_APP_LAUNCH o ∈ P) = False :=
        eq_false (fun h => by simpa [hP.preamble_facts] using mem_runVMCalls h)
      have h2 : (Event.RunVM .USER_APP_LAUNCH o ∈ C) = False :=
        eq_false (fun h => by simpa [hC.catch_facts] using mem_runVMCalls h)
      have ho : o = o1 := by
        simpa [h1, h2, hR.resolve_not_mem, hV.validate_not_mem, Event.inResolution,
          Event.inValidation] using hrun
      subst ho
      refine ⟨_, dir, _, _, _, C, hR, hV, ?_, ?_, rfl, ?_⟩
      · rw [bodyTrace, ← hd]
        simp
      · exact hC.catch_shape
      · intro r hr
        subst hr
        simp only [Outcome.toExcept] at hC
        cases hC
        rfl

/-- C16, as stated, fails: with the application configured for `Enabled`, a launch that
finds another instance invokes `RunVM` (in `SINGLE_INSTANCE_NOTIFICATION_LAUNCH` mode)
while the AppCDS state is `Enabled`, and no `FileExists` check, nor any other call of the
cache logic, was made before it. -/
theorem notification_launch_skips_validation :
    (launch testEnv ["launcher", "document.txt"] .cdsUninitialized busyWorld).state.FAppCDSState
      = .cdsEnabled ∧
    .RunVM .SINGLE_INSTANCE_NOTIFICATION_LAUNCH (.returned true) ∈
      (launch testEnv ["launcher", "document.txt"] .cdsUninitialized busyWorld).state.trace ∧
    fileProbes
      (launch testEnv ["launcher", "document.txt"] .cdsUninitialized busyWorld).state.trace
      = [] ∧
    ∀ e ∈ (launch testEnv ["launcher", "document.txt"] .cdsUninitialized busyWorld).state.trace,
      e.isCacheEffect = false := by
  decide

/-- C16, amended. No launch of the application without validation: in every run in which
`RunVM` is invoked in mode `USER_APP_LAUNCH` while the AppCDS state is `Enabled` or `Auto`,
whatever the collaborators answer, the two calls just before that `RunVM` call are the
query of the cache file name and a `FileExists` check on that file which returned `true`;
no child process is created or executed after that check. -/
theorem validated_before_user_launch {σ : Type} (env : Env σ) (argv : List String)
    (cds : AppCDSState) (w : σ) (o : Outcome Bool)
    (hrun : .RunVM .USER_APP_LAUNCH o ∈ (launch env argv cds w).state.trace)
    (hst : (launch env argv cds w).state.FAppCDSState = .cdsEnabled ∨
      (launch env argv cds w).state.FAppCDSState = .cdsAuto) :
    ∃ pre f post, (launch env argv cds w).state.trace =
        pre ++ [.GetAppCDSCacheFileName (.returned f), .FileExists f (.returned true),
          .RunVM .USER_APP_LAUNCH o] ++ post ∧
      ∀ e ∈ post, e.isSpawn = false := by
  obtain ⟨c, dir, R, c2, V, C, hR, hV, htr, hC, hc, -⟩ :=
    user_launch_cases (launch_path env argv cds w) hrun
  rw [hc] at hst
  have hV1 : ∃ f, V = [.GetAppCDSCacheFileName (.returned f), .FileExists f (.returned true)] := by
    cases hV with
    | disabled => simp at hst
    | genCache => simp at hst
    | present c3 h3 f => exact ⟨f, rfl⟩
    | internalError => simp at hst
  obtain ⟨f, rfl⟩ := hV1
  refine ⟨headTrace argv c dir ++ .CheckForSingleInstance (.returned false) ::
    .GetAppCDSState c :: (R ++ [.GetAppCDSState c2]), f, C, ?_, ?_⟩
  · rw [htr]
    simp [bodyTrace]
  · rcases hC with rfl | ⟨m, o1, rfl⟩ <;> simp [Event.isSpawn]

/-! ## Failures of the cache preparation -/

theorem cacheFailure_isCacheEffect {e : Event} {ex : Exc} (h : e.cacheFailure = some ex) :
    e.isCacheEffect = true := by
  cases e <;> first | rfl | simp [Event.cacheFailure] at h

theorem cacheFailure_inResolution {e : Event} {ex : Exc} (h : e.cacheFailure = some ex) :
    e.inResolution = true ∧ e.inValidation = false := by
  cases e <;> first | exact ⟨rfl, rfl⟩ | simp [Event.cacheFailure] at h

theorem PreamblePath.preamble_quiet {argv : List String} {cds c : AppCDSState}
    {P : List Event} {out : Except Exc Bool} (h : PreamblePath argv cds P out c) :
    ∀ e ∈ P, e.isCacheEffect = false := by
  cases h <;> simp [Event.isCacheEffect, or_imp, forall_and]

theorem ResolvePath.resolve_failure_inv {p : Bool} {c c1 : AppCDSState} {R : List Event}
    {out : Except Exc Unit} (h : ResolvePath p c R out c1) {e : Event} {ex : Exc}
    (he : e ∈ R) (hf : e.cacheFailure = some ex) : out = .error ex := by
  have hm : ex ∈ R.filterMap Event.cacheFailure := List.mem_filterMap.2 ⟨e, he, hf⟩
  cases h <;> simp [Event.cacheFailure] at hm <;> (subst hm; rfl)

/-- A run in which an operation of the cache preparation throws `ex` ends there: the `try`
block is left with `ex`, without a message and without a call of `RunVM`. -/
theorem TryPath.try_failure_inv {format : String → String → String} {argv : List String}
    {cds c : AppCDSState} {T : List Event} {out : Except Exc Bool}
    (h : TryPath format argv cds T out c) {e : Event} {ex : Exc}
    (he : e ∈ T) (hf : e.cacheFailure = some ex) :
    out = .error ex ∧ shownMessages T = [] ∧ runVMCalls T = [] := by
  have hk := cacheFailure_isCacheEffect hf
  have hk2 := cacheFailure_inResolution hf
  have hP1 : ∀ {P : List Event} {o : Except Exc Bool} {c0 : AppCDSState},
      PreamblePath argv cds P o c0 → (e ∈ P) = False := by
    intro P o c0 hP
    exact eq_false (fun hm => by simp [hP.preamble_quiet e hm] at hk)
  have hS1 : ∀ {S : List Event} {o : Except Exc (Option Bool)} {c0 c3 : AppCDSState},
      SinglePath c0 S o c3 → (e ∈ S) = False := by
    intro S o c0 c3 hS
    exact eq_false (fun hm => by simp [hS.single_quiet.1 e hm] at hk)
  have hr : (∃ c0, e = .GetAppCDSState c0) = False :=
    eq_false (fun ⟨c0, h0⟩ => by subst h0; simp [Event.cacheFailure] at hf)
  have hv : (∃ o0, e = .RunVM .USER_APP_LAUNCH o0) = False :=
    eq_false (fun ⟨c0, h0⟩ => by subst h0; simp [Event.cacheFailure] at hf)
  have hne : ∀ c0, e ≠ .GetAppCDSState c0 := by
    intro c0 h0
    subst h0
    simp [Event.cacheFailure] at hf
  have hnv : ∀ o0, e ≠ .RunVM .USER_APP_LAUNCH o0 := by
    intro o0 h0
    subst h0
    simp [Event.cacheFailure] at hf
  cases h with
  | preambleThrew hP => simp [hP1 hP] at he
  | singleThrew hP hS => simp [hP1 hP, hS1 hS] at he
  | handedOff hP hS => simp [hP1 hP, hS1 hS] at he
  | @resolveThrew P S R p e0 c0 c1 c2 hP hS hR =>
    have he1 : e ∈ R := by
      simpa [hP1 hP, hS1 hS, hne] using he
    have h1 := hR.resolve_failure_inv he1 hf
    obtain ⟨rfl, rfl⟩ := hS.none_inv
    cases h1
    simp [hP.preamble_facts, hR.resolve_facts]
  | @validateThrew P S R V p e0 c0 c1 c2 c3 hP hS hR hV =>
    have he1 : e ∈ R := by
      simpa [hP1 hP, hS1 hS, hne, hV.validate_not_mem hk2.2] using he
    have h1 := hR.resolve_failure_inv he1 hf
    cases h1
  | @launched P S R V p c0 c1 c2 c3 o hP hS hR hV =>
    have he1 : e ∈ R := by
      simpa [hP1 hP, hS1 hS, hne, hnv, hV.validate_not_mem hk2.2] using he
    have h1 := hR.resolve_failure_inv he1 hf
    cases h1

/-- C13, as stated, fails: the creation of the cache directory throws an exception that is
not a `FileNotFoundException`; `start_launcher` does not return `false` and shows no
message, it is left by that exception. -/
theorem cache_failure_propagates :
    .CreateDirectory "cache" true (.threw (.Exception "cannot create directory")) ∈
      (launch testEnv ["launcher", "-Xappcds:generatecache", "-Xapp:child"] .cdsUninitialized
        fullDiskWorld).state.trace ∧
    (launch testEnv ["launcher", "-Xappcds:generatecache", "-Xapp:child"] .cdsUninitialized
        fullDiskWorld).outcome = .error (.Exception "cannot create directory") ∧
    shownMessages (launch testEnv ["launcher", "-Xappcds:generatecache", "-Xapp:child"]
        .cdsUninitialized fullDiskWorld).state.trace = [] :=
  ⟨by decide, rfl, by decide⟩

/-- C13, amended. Failures of the cache preparation are not handled: in every run in which
the creation of the cache directory, the deletion of the stale cache file, or the creation
or execution of the child process throws an exception other than a
`FileNotFoundException`, that exception leaves `start_launcher`: no value is returned, no
message is shown and `RunVM` is not invoked. -/
theorem cache_failure_is_uncaught {σ : Type} (env : Env σ) (argv : List String)
    (cds : AppCDSState) (w : σ) (e : Event) (m : String)
    (he : e ∈ (launch env argv cds w).state.trace)
    (hf : e.cacheFailure = some (.Exception m)) :
    (launch env argv cds w).outcome = .error (.Exception m) ∧
    shownMessages (launch env argv cds w).state.trace = [] ∧
    runVMCalls (launch env argv cds w).state.trace = [] := by
  have hp := launch_path env argv cds w
  revert he hp
  generalize (launch env argv cds w).state.trace = tr
  generalize (launch env argv cds w).outcome = out
  generalize (launch env argv cds w).state.FAppCDSState = c1
  intro he hp
  cases hp with
  | platformThrew e0 =>
    simp only [List.mem_singleton] at he
    subst he
    simp [Event.cacheFailure] at hf
  | @tried T C out0 res c0 hT hC =>
    have hC1 : (e ∈ C) = False :=
      eq_false (fun hm => by
        rcases hC.catch_shape with rfl | ⟨m1, o1, rfl⟩
        · simp at hm
        · simp only [List.mem_singleton] at hm
          subst hm
          simp [Event.cacheFailure] at hf)
    have he1 : e ∈ T := by
      simp only [List.mem_cons, List.mem_append, hC1, or_false] at he
      rcases he with rfl | he
      · simp [Event.cacheFailure] at hf
      · exact he
    obtain ⟨rfl, h2, h3⟩ := hT.try_failure_inv he1 hf
    cases hC
    simp [h2, h3]

/-! ## Runs that reach the cache resolution -/

/-- In a run in which no call throws and the cache resolution step reads the AppCDS state
`c0`, the step completes along one of its paths `R`, leaving a state `c2` that the
validation step reads; what follows that read are calls of the validation step, the
message of the `catch` clause, or the launch of the application. -/
theorem quiet_body {format : String → String → String} {argv : List String}
    {cds c1 c0 : AppCDSState} {tr : List Event} {out : Except Exc Bool}
    (hp : RunPath format argv cds tr out c1) (hq : noThrow tr)
    (hst : stateAtResolution tr = some c0) :
    ∃ dir R c2 X, ResolvePath (scanParent argv true) c0 R (.ok ()) c2 ∧
      tr = bodyTrace argv c0 dir R c2 X ∧
      (∀ e ∈ X, e.inValidation = true ∨ ∃ r, e = .RunVM .USER_APP_LAUNCH (.returned r)) ∧
      c1 = c2 ∧ stateAtValidation tr = some c2 ∧ resolutionTrace tr = R ∧
      validationTrace tr = X := by
  rcases quiet_cases hp hq with
    ⟨c, dir, S, b, hS, htr, hout, -⟩ | ⟨c, dir, R, c2, V, r, hR, hV, htr, hout, hc⟩ |
    ⟨c, dir, R, c2, f, t, hR, hc2, htr, hout, hc⟩
  · rw [htr, (headTrace_reads argv c dir S hS.single_noRead).1] at hst
    cases hst
  · obtain ⟨h1, h2, h3, h4⟩ := bodyTrace_reads argv c dir c2
      (V ++ [.RunVM .USER_APP_LAUNCH (.returned r)]) hR.resolve_noRead
    rw [htr, h1] at hst
    cases hst
    refine ⟨dir, R, c2, _, hR, htr, ?_, hc, ?_, ?_, ?_⟩
    · intro e he
      rcases List.mem_append.1 he with h | h
      · exact Or.inl (hV.validate_kind e h)
      · exact Or.inr ⟨r, List.mem_singleton.1 h⟩
    · rw [htr, h2]
    · rw [htr, h3]
    · rw [htr, h4]
  · obtain ⟨h1, h2, h3, h4⟩ := bodyTrace_reads argv c dir c2
      [.GetAppCDSCacheFileName (.returned f), .FileExists f (.returned false),
        .GetMessage .APPCDS_CACHE_FILE_NOT_FOUND (.returned t),
        .ShowMessage (format t f) (.returned ())] hR.resolve_noRead
    rw [htr, h1] at hst
    cases hst
    refine ⟨dir, R, c2, _, hR, htr, ?_, hc, ?_, ?_, ?_⟩
    · intro e he
      left
      simp only [List.mem_cons, List.mem_singleton, List.not_mem_nil, or_false] at he
      rcases he with rfl | rfl | rfl | rfl <;> rfl
    · rw [htr, h2]
    · rw [htr, h3]
    · rw [htr, h4]

/-- What follows the read of the validation step holds no execution of a process, no
filesystem effect, no write of the AppCDS state and no reset of the package. -/
theorem tail_facts {X : List Event}
    (h : ∀ e ∈ X, e.inValidation = true ∨ ∃ r, e = .RunVM .USER_APP_LAUNCH (.returned r)) :
    executions X = [] ∧ X.filter Event.isSpawn = [] ∧ X.filter Event.isReset = [] ∧
      filesystemEffects X = [] ∧ stateWrites X = [] := by
  refine ⟨?_, ?_, ?_, ?_, ?_⟩
  · simp only [executions, List.filterMap_eq_nil_iff]
    intro e he
    rcases h e he with h1 | ⟨r, rfl⟩
    · cases e <;> first | (simp [Event.inValidation] at h1; done) |
        simp [Event.isSpawn, Event.isReset]
    · rfl
  · simp only [List.filter_eq_nil_iff]
    intro e he
    rcases h e he with h1 | ⟨r, rfl⟩
    · cases e <;> first | (simp [Event.inValidation] at h1; done) |
        simp [Event.isSpawn, Event.isReset]
    · simp [Event.isSpawn]
  · simp only [List.filter_eq_nil_iff]
    intro e he
    rcases h e he with h1 | ⟨r, rfl⟩
    · cases e <;> first | (simp [Event.inValidation] at h1; done) |
        simp [Event.isSpawn, Event.isReset]
    · simp [Event.isReset]
  · simp only [filesystemEffects, List.filter_eq_nil_iff]
    intro e he
    rcases h e he with h1 | ⟨r, rfl⟩
    · cases e <;> first | (simp [Event.inValidation] at h1; done) |
        simp [Event.isSpawn, Event.isReset]
    · simp
  · simp only [stateWrites, List.filterMap_eq_nil_iff]
    intro e he
    rcases h e he with h1 | ⟨r, rfl⟩
    · cases e <;> first | (simp [Event.inValidation] at h1; done) |
        simp [Event.isSpawn, Event.isReset]
    · rfl

theorem filter_scanTrace (argv : List String) :
    (scanTrace argv).filter Event.isSpawn = [] ∧
      (scanTrace argv).filter Event.isReset = scanTrace argv ∧
      filesystemEffects (scanTrace argv) = [] := by
  refine ⟨?_, ?_, ?_⟩
  · simp only [List.filter_eq_nil_iff]
    intro e he
    rcases (mem_scanTrace argv e).1 he with ⟨rfl, -⟩ | ⟨rfl, -⟩ <;> simp [Event.isSpawn]
  · simp only [List.filter_eq_self]
    intro e he
    rcases (mem_scanTrace argv e).1 he with ⟨rfl, -⟩ | ⟨rfl, -⟩ <;> rfl
  · simp only [filesystemEffects, List.filter_eq_nil_iff]
    intro e he
    rcases (mem_scanTrace argv e).1 he with ⟨rfl, -⟩ | ⟨rfl, -⟩ <;> simp

/-- The executions, process events, resets and filesystem effects of a run that reaches the
validation step are those of the argument scan and of the cache resolution step. -/
theorem bodyTrace_effects (argv : List String) (c : AppCDSState) (dir : String)
    (R : List Event) (c2 : AppCDSState) {X : List Event}
    (h : ∀ e ∈ X, e.inValidation = true ∨ ∃ r, e = .RunVM .USER_APP_LAUNCH (.returned r)) :
    executions (bodyTrace argv c dir R c2 X) = executions R ∧
    (bodyTrace argv c dir R c2 X).filter Event.isSpawn = R.filter Event.isSpawn ∧
    (bodyTrace argv c dir R c2 X).filter Event.isReset =
      scanTrace argv ++ R.filter Event.isReset ∧
    filesystemEffects (bodyTrace argv c dir R c2 X) = filesystemEffects R := by
  obtain ⟨h1, h2, h3, h4, -⟩ := tail_facts h
  obtain ⟨h5, h6, h7⟩ := filter_scanTrace argv
  simp only [filesystemEffects] at h4 h7 ⊢
  refine ⟨?_, ?_, ?_, ?_⟩
  · simp [bodyTrace, h1]
  · simp [bodyTrace, headTrace, h2, h5, Event.isSpawn]
  · simp [bodyTrace, headTrace, h3, h6, Event.isReset]
  · simp [bodyTrace, headTrace, h4, h7]

/-- C11. GenerateCache preparation: in every run in which the AppCDS state at cache
resolution is `GenerateCache` and no collaborator call throws, the cache resolution step
makes exactly one of three sequences of calls.  If the cache directory does not exist, it
creates it, recursively, and deletes nothing.  If the directory exists, it creates nothing
and then checks the cache file: it deletes the file if the file exists, and does nothing if
it does not.  The directory check comes before the file check, the run has no other
directory creation or file deletion, and the state is still `GenerateCache` at the
validation step. -/
theorem genCache_preparation {σ : Type} (env : Env σ) (argv : List String)
    (cds : AppCDSState) (w : σ) (hq : noThrow (launch env argv cds w).state.trace)
    (hst : stateAtResolution (launch env argv cds w).state.trace = some .cdsGenCache) :
    (∃ d f,
      resolutionTrace (launch env argv cds w).state.trace =
        [.GetAppCDSCacheDirectory (.returned d), .DirectoryExists d (.returned false),
          .CreateDirectory d true (.returned ())] ∨
      resolutionTrace (launch env argv cds w).state.trace =
        [.GetAppCDSCacheDirectory (.returned d), .DirectoryExists d (.returned true),
          .GetAppCDSCacheFileName (.returned f), .FileExists f (.returned true),
          .DeleteFile f (.returned ())] ∨
      resolutionTrace (launch env argv cds w).state.trace =
        [.GetAppCDSCacheDirectory (.returned d), .DirectoryExists d (.returned true),
          .GetAppCDSCacheFileName (.returned f), .FileExists f (.returned false)]) ∧
    filesystemEffects (launch env argv cds w).state.trace =
      filesystemEffects (resolutionTrace (launch env argv cds w).state.trace) ∧
    stateAtValidation (launch env argv cds w).state.trace = some .cdsGenCache ∧
    (launch env argv cds w).state.FAppCDSState = .cdsGenCache := by
  obtain ⟨dir, R, c2, X, hR, htr, hX, hc, hv, hr, -⟩ :=
    quiet_body (launch_path env argv cds w) hq hst
  rw [hr, hv, hc]
  generalize scanParent argv true = p at hR
  refine ⟨?_, ?_, ?_⟩
  · cases hR with
    | genCreated p d => exact ⟨d, "", Or.inl rfl⟩
    | genDeleted p d f => exact ⟨d, f, Or.inr (Or.inl rfl)⟩
    | genNoFile p d f => exact ⟨d, f, Or.inr (Or.inr rfl)⟩
  · rw [htr]
    exact (bodyTrace_effects argv _ dir R c2 hX).2.2.2
  · cases hR <;> exact ⟨rfl, rfl⟩

theorem scanParent_parent {argv : List String} (h : "-Xapp:child" ∉ argv) :
    scanParent argv true = true := by
  simp [scanParent_eq, h]

/-- C6. Auto generation: in every run with parent role (no `-Xapp:child` in `argv`) in
which no other instance is detected, the AppCDS state at cache resolution is `Auto`, the
first existence check finds no cache file, and no collaborator call throws, exactly one
child process is created and executed: on the executable that `GetModuleFileName` returns,
with the argument list `-Xappcds:generatecache`, `-Xapp:child`, and with the wait flag set.
If the existence check after the child finds the cache file, the AppCDS state is still
`Auto` at validation and at the end of the run, and the only writes of the state are those
of the argument scan: the package is neither cleared nor initialised again. -/
theorem auto_generation {σ : Type} (env : Env σ) (argv : List String)
    (cds : AppCDSState) (w : σ) (hparent : "-Xapp:child" ∉ argv)
    (_hno : .CheckForSingleInstance (.returned false) ∈ (launch env argv cds w).state.trace)
    (hst : stateAtResolution (launch env argv cds w).state.trace = some .cdsAuto)
    (hmiss : (fileProbes (resolutionTrace (launch env argv cds w).state.trace)).head?
      = some false)
    (hq : noThrow (launch env argv cds w).state.trace) :
    (∃ app b,
      .GetModuleFileName (.returned app) ∈
        resolutionTrace (launch env argv cds w).state.trace ∧
      executions (launch env argv cds w).state.trace =
        [(app, ["-Xappcds:generatecache", "-Xapp:child"], true)] ∧
      (launch env argv cds w).state.trace.filter Event.isSpawn =
        [.CreateProcess (.returned ()),
          .Execute app ["-Xappcds:generatecache", "-Xapp:child"] true (.returned b)]) ∧
    (fileProbes (resolutionTrace (launch env argv cds w).state.trace) = [false, true] →
      stateAtValidation (launch env argv cds w).state.trace = some .cdsAuto ∧
      (launch env argv cds w).state.FAppCDSState = .cdsAuto ∧
      (launch env argv cds w).state.trace.filter Event.isReset = scanTrace argv) := by
  obtain ⟨dir, R, c2, X, hR, htr, hX, hc, hv, hr, -⟩ :=
    quiet_body (launch_path env argv cds w) hq hst
  obtain ⟨h1, h2, h3, -⟩ := bodyTrace_effects argv .cdsAuto dir R c2 hX
  rw [hr] at hmiss ⊢
  rw [hv, hc, htr, h1, h2, h3]
  rw [scanParent_parent hparent] at hR
  cases hR with
  | autoPresent f => simp at hmiss
  | autoGenerated f app b =>
    exact ⟨⟨app, b, by simp, rfl, rfl⟩, fun _ => ⟨rfl, rfl, by simp [Event.isReset]⟩⟩
  | autoDowngraded f app b c =>
    exact ⟨⟨app, b, by simp, rfl, rfl⟩, fun h => by simp at h⟩

/-- C7. Auto generation failure downgrades: in every run with parent role in which no
other instance is detected, the AppCDS state at cache resolution is `Auto`, the existence
checks before and after the child process both find no cache file, and no collaborator
call throws, the cache resolution step ends by setting the AppCDS state to `Disabled`,
clearing the package and initialising it, in that order; apart from the writes of the
argument scan these are the only writes of the state and resets of the package in the run,
so that each happens exactly once.  The validation step reads the state the initialisation
leaves. -/
theorem auto_downgrade {σ : Type} (env : Env σ) (argv : List String)
    (cds : AppCDSState) (w : σ) (hparent : "-Xapp:child" ∉ argv)
    (_hno : .CheckForSingleInstance (.returned false) ∈ (launch env argv cds w).state.trace)
    (hst : stateAtResolution (launch env argv cds w).state.trace = some .cdsAuto)
    (hmiss : fileProbes (resolutionTrace (launch env argv cds w).state.trace)
      = [false, false])
    (hq : noThrow (launch env argv cds w).state.trace) :
    ∃ pre c,
      resolutionTrace (launch env argv cds w).state.trace =
        pre ++ [.SetAppCDSState .cdsDisabled, .Clear (.returned ()),
          .Initialize (.returned c)] ∧
      (launch env argv cds w).state.trace.filter Event.isReset =
        scanTrace argv ++ [.SetAppCDSState .cdsDisabled, .Clear (.returned ()),
          .Initialize (.returned c)] ∧
      stateWrites (resolutionTrace (launch env argv cds w).state.trace) = [.cdsDisabled] ∧
      stateAtValidation (launch env argv cds w).state.trace = some c := by
  obtain ⟨dir, R, c2, X, hR, htr, hX, hc, hv, hr, -⟩ :=
    quiet_body (launch_path env argv cds w) hq hst
  obtain ⟨-, -, h3, -⟩ := bodyTrace_effects argv .cdsAuto dir R c2 hX
  rw [hr] at hmiss ⊢
  rw [hv, htr, h3]
  rw [scanParent_parent hparent] at hR
  cases hR with
  | autoPresent f => simp at hmiss
  | autoGenerated f app b => simp at hmiss
  | autoDowngraded f app b c =>
    exact ⟨[.GetAppCDSCacheFileName (.returned f), .FileExists f (.returned false),
      .CreateProcess (.returned ()), .GetModuleFileName (.returned app),
      .Execute app childArgs true (.returned b), .FileExists f (.returned false)], c2, rfl,
      by simp [Event.isReset], rfl, rfl⟩

/-- C8. Graceful degradation: in every run in which the generation of the cache in state
`Auto` fails (parent role, no other instance, state `Auto` at cache resolution, no cache
file before and after the child process, the initialisation of the package leaving the
AppCDS state `Disabled`) and no collaborator call throws, `start_launcher` shows no
message, executes exactly one child process, then invokes `RunVM` exactly once, in mode
`USER_APP_LAUNCH`, and returns the value `RunVM` returned. -/
theorem graceful_degradation {σ : Type} (env : Env σ) (argv : List String)
    (cds : AppCDSState) (w : σ) (hparent : "-Xapp:child" ∉ argv)
    (_hno : .CheckForSingleInstance (.returned false) ∈ (launch env argv cds w).state.trace)
    (hst : stateAtResolution (launch env argv cds w).state.trace = some .cdsAuto)
    (hmiss : fileProbes (resolutionTrace (launch env argv cds w).state.trace)
      = [false, false])
    (hinit : .Initialize (.returned .cdsDisabled) ∈
      resolutionTrace (launch env argv cds w).state.trace)
    (hq : noThrow (launch env argv cds w).state.trace) :
    shownMessages (launch env argv cds w).state.trace = [] ∧
    (executions (launch env argv cds w).state.trace).length = 1 ∧
    runVMCalls (launch env argv cds w).state.trace = [.USER_APP_LAUNCH] ∧
    ∃ r, validationTrace (launch env argv cds w).state.trace =
        [.RunVM .USER_APP_LAUNCH (.returned r)] ∧
      (launch env argv cds w).outcome = .ok r := by
  rcases quiet_cases (launch_path env argv cds w) hq with
    ⟨c, dir, S, b, hS, htr, hout, -⟩ | ⟨c, dir, R, c2, V, r, hR, hV, htr, hout, -⟩ |
    ⟨c, dir, R, c2, f, t, hR, hc2, htr, hout, -⟩
  · rw [htr, (headTrace_reads argv c dir S hS.single_noRead).1] at hst
    cases hst
  · obtain ⟨h1, -, h3, h4⟩ := bodyTrace_reads argv c dir c2
      (V ++ [.RunVM .USER_APP_LAUNCH (.returned r)]) hR.resolve_noRead
    rw [htr, h1] at hst
    rw [htr, h3] at hmiss hinit
    rw [htr, h4, hout]
    cases hst
    rw [scanParent_parent hparent] at hR
    cases hR with
    | autoPresent f => simp at hmiss
    | autoGenerated f app b => simp at hmiss
    | autoDowngraded f app b c =>
      have hc : c2 = .cdsDisabled := by simpa [eq_comm] using hinit
      subst hc
      cases hV with
      | present c3 hc3 f => exact absurd hc3 (by simp)
      | disabled =>
        exact ⟨by simp [bodyTrace], by simp [bodyTrace], by simp [bodyTrace], r, rfl, rfl⟩
  · obtain ⟨h1, -, h3, -⟩ := bodyTrace_reads argv c dir c2
      [.GetAppCDSCacheFileName (.returned f), .FileExists f (.returned false),
        .GetMessage .APPCDS_CACHE_FILE_NOT_FOUND (.returned t),
        .ShowMessage (env.Format t f) (.returned ())] hR.resolve_noRead
    rw [htr, h1] at hst
    rw [htr, h3] at hmiss hinit
    cases hst
    rw [scanParent_parent hparent] at hR
    cases hR with
    | autoPresent f => simp at hmiss
    | autoGenerated f app b => simp at hmiss
    | autoDowngraded f app b c =>
      have hc : c2 = .cdsDisabled := by simpa [eq_comm] using hinit
      subst hc
      simp at hc2

@[simp] theorem thrownExceptions_nil : thrownExceptions [] = [] := rfl

@[simp] theorem thrownExceptions_append (l m : List Event) :
    thrownExceptions (l ++ m) = thrownExceptions l ++ thrownExceptions m := by
  simp [thrownExceptions]

@[simp] theorem thrownExceptions_cons (e : Event) (l : List Event) :
    thrownExceptions (e :: l) = match e.thrown with
      | some x => x :: thrownExceptions l
      | none => thrownExceptions l := by
  cases h : e.thrown <;> simp [thrownExceptions, List.filterMap_cons, h]

@[simp] theorem thrownExceptions_scanTrace (argv : List String) :
    thrownExceptions (scanTrace argv) = [] :=
  filterMap_scanTrace Event.thrown (fun _ => rfl) argv

theorem PreamblePath.preamble_thrown {argv : List String} {cds c : AppCDSState}
    {P : List Event} {e : Exc} (h : PreamblePath argv cds P (.error e) c) :
    e ∈ thrownExceptions P := by
  cases h <;> simp [Event.thrown]

theorem SinglePath.single_thrown {c c1 : AppCDSState} {S : List Event} {e : Exc}
    (h : SinglePath c S (.error e) c1) : e ∈ thrownExceptions S := by
  cases h <;> simp [Event.thrown]

theorem ResolvePath.resolve_thrown {p : Bool} {c c1 : AppCDSState} {R : List Event}
    {e : Exc} (h : ResolvePath p c R (.error e) c1) : e ∈ thrownExceptions R := by
  cases h <;> simp [Event.thrown]

theorem lastFlagState_nil (cds : AppCDSState) : lastFlagState [] cds = cds := rfl

theorem lastFlagState_cons (a : String) (rest : List String) (cds : AppCDSState) :
    lastFlagState (a :: rest) cds =
      lastFlagState rest (if a = "-Xappcds:generatecache" then .cdsGenCache
        else if a = "-Xappcds:off" then .cdsDisabled else cds) := by
  unfold lastFlagState
  by_cases h1 : a = "-Xappcds:generatecache"
  · subst h1
    cases h : List.filter isCacheFlag rest with
    | nil => simp [List.filter, isCacheFlag, h]
    | cons b l =>
      have hl : ∃ x, (b :: l).getLast? = some x := ⟨_, List.getLast?_eq_getLast _ (by simp)⟩
      obtain ⟨x, hx⟩ := hl
      simp [List.filter, isCacheFlag, h, hx]
  · by_cases h2 : a = "-Xappcds:off"
    · subst h2
      cases h : List.filter isCacheFlag rest with
      | nil => simp [List.filter, isCacheFlag, h]
      | cons b l =>
      have hl : ∃ x, (b :: l).getLast? = some x := ⟨_, List.getLast?_eq_getLast _ (by simp)⟩
      obtain ⟨x, hx⟩ := hl
      simp [List.filter, isCacheFlag, h, hx]
    · have : isCacheFlag a = false := by simp [isCacheFlag, h1, h2]
      simp [List.filter, this, h1, h2]

theorem scanState_eq_lastFlagState (argv : List String) (cds : AppCDSState) :
    scanState argv cds = lastFlagState argv cds := by
  induction argv generalizing cds with
  | nil => rfl
  | cons a rest ih =>
    rw [lastFlagState_cons, ← ih]
    simp only [scanState]
    split
    · rfl
    · split <;> rfl

theorem scan_skip (a : String) (pre post : List String)
    (h1 : a ≠ "-Xappcds:generatecache") (h2 : a ≠ "-Xappcds:off") (h3 : a ≠ "-Xapp:child")
    (p : Bool) (cds : AppCDSState) :
    scanParent (pre ++ a :: post) p = scanParent (pre ++ post) p ∧
      scanState (pre ++ a :: post) cds = scanState (pre ++ post) cds ∧
      scanTrace (pre ++ a :: post) = scanTrace (pre ++ post) := by
  induction pre generalizing p cds with
  | nil => simp [scanParent, scanState, scanTrace, h1, h2, h3]
  | cons b l ih =>
    simp only [List.cons_append, scanParent, scanState, scanTrace]
    refine ⟨?_, ?_, ?_⟩
    · split
      · exact (ih _ cds).1
      · split
        · exact (ih _ cds).1
        · split <;> exact (ih _ cds).1
    · split
      · exact (ih p _).2.1
      · split <;> exact (ih p _).2.1
    · split
      · exact congrArg _ (ih p cds).2.2
      · split
        · exact congrArg _ (ih p cds).2.2
        · exact (ih p cds).2.2

/-- C20. Result of the argument scan (last cache flag wins): for every argument vector,
the scan returns; after it the AppCDS state is `GenerateCache` if the last argument equal
to `-Xappcds:generatecache` or `-Xappcds:off` is `-Xappcds:generatecache`, `Disabled` if it
is `-Xappcds:off`, and the state before the scan if neither occurs; `parentProcess` is
`false` (child role) if and only if some argument equals `-Xapp:child`; the world is left
as it is; and an argument that is none of the three flags changes nothing: the scan with
it and the scan without it end alike. -/
theorem scan_last_flag_wins {σ : Type} (argv : List String) (s : LauncherState σ) :
    scanArguments argv true s =
      .ok (decide ("-Xapp:child" ∉ argv))
        ⟨lastFlagState argv s.FAppCDSState, s.world, s.trace ++ scanTrace argv⟩ ∧
    ∀ a pre post, argv = pre ++ a :: post → a ≠ "-Xappcds:generatecache" →
      a ≠ "-Xappcds:off" → a ≠ "-Xapp:child" →
      scanArguments argv true s = scanArguments (pre ++ post) true s := by
  refine ⟨?_, ?_⟩
  · rw [scanArguments_run, scanParent_eq, scanState_eq_lastFlagState]
    simp
  · intro a pre post harg h1 h2 h3
    subst harg
    obtain ⟨h4, h5, h6⟩ := scan_skip a pre post h1 h2 h3 true s.FAppCDSState
    rw [scanArguments_run, scanArguments_run, h4, h5, h6]

/-- C19. The downgrade is idempotent: the cache resolution step run on the state an
`Auto`-to-`Disabled` downgrade produces, the AppCDS state `Disabled`, is a no-op, whatever
the process role: it returns, leaves the state `Disabled`, and calls no collaborator at
all, so that the package is not cleared or initialised again, no process is created and no
file or directory is touched; the read of the state is the only entry it adds to the
trace, and the world is left as it is. -/
theorem downgrade_idempotent {σ : Type} (env : Env σ) (parentProcess : Bool) (w : σ)
    (tr : List Event) :
    resolveCache env parentProcess ⟨.cdsDisabled, w, tr⟩ =
      .ok () ⟨.cdsDisabled, w, tr ++ [.GetAppCDSState .cdsDisabled]⟩ := by
  rfl

theorem scanState_single_flag (argv : List String) (cds : AppCDSState)
    (h : ¬ ("-Xappcds:generatecache" ∈ argv ∧ "-Xappcds:off" ∈ argv)) :
    scanState argv cds =
      if "-Xappcds:generatecache" ∈ argv then .cdsGenCache
      else if "-Xappcds:off" ∈ argv then .cdsDisabled else cds := by
  induction argv generalizing cds with
  | nil => simp [scanState]
  | cons a rest ih =>
    have hrest : ¬ ("-Xappcds:generatecache" ∈ rest ∧ "-Xappcds:off" ∈ rest) :=
      fun h1 => h ⟨List.mem_cons_of_mem _ h1.1, List.mem_cons_of_mem _ h1.2⟩
    simp only [scanState]
    by_cases h1 : a = "-Xappcds:generatecache"
    · subst h1
      have hoff : "-Xappcds:off" ∉ rest := fun h2 => h ⟨by simp, List.mem_cons_of_mem _ h2⟩
      rw [if_pos rfl, ih _ hrest]
      simp [hoff]
    · by_cases h2 : a = "-Xappcds:off"
      · subst h2
        have hgen : "-Xappcds:generatecache" ∉ rest :=
          fun h3 => h ⟨List.mem_cons_of_mem _ h3, by simp⟩
        rw [if_neg h1, if_pos rfl, ih _ hrest]
        simp [hgen]
      · rw [if_neg h1, if_neg h2, ih _ hrest]
        have e1 : ¬ "-Xappcds:generatecache" = a := fun h3 => h1 h3.symm
        have e2 : ¬ "-Xappcds:off" = a := fun h3 => h2 h3.symm
        simp [e1, e2]

/-- C12, as stated, fails: the two cache flags in the two orders are permutations of one
another, and the scan leaves the AppCDS state `Disabled` for one and `GenerateCache` for
the other. -/
theorem scan_order_matters :
    List.Perm ["-Xappcds:generatecache", "-Xappcds:off"]
      ["-Xappcds:off", "-Xappcds:generatecache"] ∧
    (scanArguments ["-Xappcds:generatecache", "-Xappcds:off"] true
      (⟨.cdsUninitialized, freshWorld, []⟩ : LauncherState TestWorld)).state.FAppCDSState
      = .cdsDisabled ∧
    (scanArguments ["-Xappcds:off", "-Xappcds:generatecache"] true
      (⟨.cdsUninitialized, freshWorld, []⟩ : LauncherState TestWorld)).state.FAppCDSState
      = .cdsGenCache :=
  ⟨List.Perm.swap _ _ _, rfl, rfl⟩

/-- C12, amended. Flag scanning and order: for every argument vector and every permutation
of it, the scan yields the same process role; it yields the same AppCDS state as well when
the vector does not hold both cache flags, `-Xappcds:generatecache` and `-Xappcds:off`.
(When it holds both, the one that comes last wins.) -/
theorem scan_permutation {σ : Type} (argv argv1 : List String) (s : LauncherState σ)
    (h : argv.Perm argv1) :
    (scanArguments argv true s).outcome = (scanArguments argv1 true s).outcome ∧
    (¬ ("-Xappcds:generatecache" ∈ argv ∧ "-Xappcds:off" ∈ argv) →
      (scanArguments argv true s).state.FAppCDSState =
        (scanArguments argv1 true s).state.FAppCDSState) := by
  rw [scanArguments_run, scanArguments_run]
  refine ⟨?_, ?_⟩
  · simp [Res.outcome, scanParent_eq, h.mem_iff]
  · intro hb
    have hb1 : ¬ ("-Xappcds:generatecache" ∈ argv1 ∧ "-Xappcds:off" ∈ argv1) := by
      simpa [h.mem_iff] using hb
    simp [Res.state, scanState_single_flag _ _ hb, scanState_single_flag _ _ hb1, h.mem_iff]

/-! ## The theorems at concrete runs -/

theorem start_launcher_return_contract_witness :
    noThrow (launch testEnv ["launcher"] .cdsUninitialized idleWorld).state.trace ∧
    ∃ b, (launch testEnv ["launcher"] .cdsUninitialized idleWorld).outcome = .ok b ∧
      (b = true ↔
        (.CheckForSingleInstance (.returned true) ∈
            (launch testEnv ["launcher"] .cdsUninitialized idleWorld).state.trace ∧
          runVMCalls (launch testEnv ["launcher"] .cdsUninitialized idleWorld).state.trace
            = [] ∧
          (.GetArgs (.returned []) ∈
              (launch testEnv ["launcher"] .cdsUninitialized idleWorld).state.trace ∨
            .GetSingleInstanceProcessId (.returned 0) ∈
              (launch testEnv ["launcher"] .cdsUninitialized idleWorld).state.trace)) ∨
        ∃ mode, .RunVM mode (.returned true) ∈
          (launch testEnv ["launcher"] .cdsUninitialized idleWorld).state.trace) :=
  ⟨by decide,
    start_launcher_return_contract testEnv ["launcher"] .cdsUninitialized idleWorld
      (by decide)⟩

theorem fatal_cache_validation_witness :
    stateAtValidation (launch testEnv ["launcher"] .cdsUninitialized brokenWorld).state.trace
      = some .cdsEnabled ∧
    runVMCalls (launch testEnv ["launcher"] .cdsUninitialized brokenWorld).state.trace = [] ∧
    (∃ f template,
      .GetAppCDSCacheFileName (.returned f) ∈
        validationTrace (launch testEnv ["launcher"] .cdsUninitialized brokenWorld).state.trace ∧
      .GetMessage .APPCDS_CACHE_FILE_NOT_FOUND (.returned template) ∈
        validationTrace (launch testEnv ["launcher"] .cdsUninitialized brokenWorld).state.trace ∧
      shownMessages (launch testEnv ["launcher"] .cdsUninitialized brokenWorld).state.trace =
        [testEnv.Format template f]) ∧
    (launch testEnv ["launcher"] .cdsUninitialized brokenWorld).outcome = .ok false :=
  ⟨by decide,
    fatal_cache_validation testEnv ["launcher"] .cdsUninitialized brokenWorld
      (by decide) (Or.inl (by decide)) ⟨"cache/app.jsa", by decide⟩ (by decide)⟩

theorem normal_launch_witness :
    stateAtValidation (launch testEnv ["launcher"] .cdsUninitialized warmWorld).state.trace
      = some .cdsAuto ∧
    runVMCalls (launch testEnv ["launcher"] .cdsUninitialized warmWorld).state.trace =
      [.USER_APP_LAUNCH] ∧
    shownMessages (launch testEnv ["launcher"] .cdsUninitialized warmWorld).state.trace
      = [] ∧
    ∃ r, .RunVM .USER_APP_LAUNCH (.returned r) ∈
        (launch testEnv ["launcher"] .cdsUninitialized warmWorld).state.trace ∧
      (launch testEnv ["launcher"] .cdsUninitialized warmWorld).outcome = .ok r :=
  ⟨by decide,
    normal_launch testEnv ["launcher"] .cdsUninitialized warmWorld
      (by decide) (by decide) ⟨"cache/app.jsa", by decide⟩ (by decide)⟩

theorem child_never_spawns_witness :
    "-Xapp:child" ∈ ["launcher", "-Xappcds:generatecache", "-Xapp:child"] ∧
    ∀ e ∈ (launch testEnv ["launcher", "-Xappcds:generatecache", "-Xapp:child"]
        .cdsUninitialized freshWorld).state.trace, e.isSpawn = false :=
  ⟨by decide,
    child_never_spawns testEnv ["launcher", "-Xappcds:generatecache", "-Xapp:child"]
      .cdsUninitialized freshWorld (by decide)⟩

theorem only_auto_spawns_witness :
    stateAtResolution (launch testEnv ["launcher"] .cdsUninitialized brokenWorld).state.trace
      = some .cdsEnabled ∧
    ∀ e ∈ (launch testEnv ["launcher"] .cdsUninitialized brokenWorld).state.trace,
      e.isSpawn = false :=
  ⟨by decide,
    only_auto_spawns testEnv ["launcher"] .cdsUninitialized brokenWorld .cdsEnabled
      (by decide) (by decide)⟩

theorem child_single_instance_witness :
    "-Xapp:child" ∈ ["launcher", "-Xappcds:generatecache", "-Xapp:child"] ∧
    ∃ b, singleInstanceChecks (launch testEnv ["launcher", "-Xappcds:generatecache", "-Xapp:child"]
        .cdsUninitialized freshWorld).state.trace = [.returned b] ∧
      (.reactivateAnotherInstance (.returned ()) ∈ (launch testEnv ["launcher",
          "-Xappcds:generatecache", "-Xapp:child"] .cdsUninitialized freshWorld).state.trace ↔ b =
          true) ∧
      (.SINGLE_INSTANCE_NOTIFICATION_LAUNCH ∈ runVMCalls (launch testEnv ["launcher",
          "-Xappcds:generatecache", "-Xapp:child"] .cdsUninitialized freshWorld).state.trace ↔
        b = true ∧ ∃ args pid,
          .GetArgs (.returned args) ∈ (launch testEnv ["launcher", "-Xappcds:generatecache",
              "-Xapp:child"] .cdsUninitialized freshWorld).state.trace ∧ args ≠ [] ∧
          .GetSingleInstanceProcessId (.returned pid) ∈ (launch testEnv ["launcher",
              "-Xappcds:generatecache", "-Xapp:child"] .cdsUninitialized freshWorld).state.trace ∧
              pid ≠ 0) :=
  ⟨by decide,
    child_single_instance testEnv ["launcher", "-Xappcds:generatecache", "-Xapp:child"]
      .cdsUninitialized freshWorld (by decide) (by decide)⟩

theorem auto_generation_witness :
    (fileProbes (resolutionTrace (launch testEnv ["launcher"] .cdsUninitialized
        freshWorld).state.trace)).head? = some false ∧
    (∃ app b,
      .GetModuleFileName (.returned app) ∈ resolutionTrace (launch testEnv ["launcher"]
          .cdsUninitialized freshWorld).state.trace ∧
      executions (launch testEnv ["launcher"] .cdsUninitialized freshWorld).state.trace =
        [(app, ["-Xappcds:generatecache", "-Xapp:child"], true)] ∧
      (launch testEnv ["launcher"] .cdsUninitialized freshWorld).state.trace.filter Event.isSpawn =
        [.CreateProcess (.returned ()),
          .Execute app ["-Xappcds:generatecache", "-Xapp:child"] true (.returned b)]) ∧
    (fileProbes (resolutionTrace (launch testEnv ["launcher"] .cdsUninitialized
        freshWorld).state.trace) = [false, true] →
      stateAtValidation (launch testEnv ["launcher"] .cdsUninitialized freshWorld).state.trace =
          some .cdsAuto ∧
      (launch testEnv ["launcher"] .cdsUninitialized freshWorld).state.FAppCDSState = .cdsAuto ∧
      (launch testEnv ["launcher"] .cdsUninitialized freshWorld).state.trace.filter Event.isReset =
          scanTrace ["launcher"]) :=
  ⟨by decide,
    auto_generation testEnv ["launcher"] .cdsUninitialized freshWorld
      (by decide) (by decide) (by decide) (by decide) (by decide)⟩

theorem auto_downgrade_witness :
    fileProbes (resolutionTrace (launch testEnv ["launcher"] .cdsUninitialized
        stubbornWorld).state.trace) = [false, false] ∧
    ∃ pre c,
      resolutionTrace (launch testEnv ["launcher"] .cdsUninitialized stubbornWorld).state.trace =
        pre ++ [.SetAppCDSState .cdsDisabled, .Clear (.returned ()),
          .Initialize (.returned c)] ∧
      (launch testEnv ["launcher"] .cdsUninitialized stubbornWorld).state.trace.filter Event.isReset
          =
        scanTrace ["launcher"] ++ [.SetAppCDSState .cdsDisabled, .Clear (.returned ()),
          .Initialize (.returned c)] ∧
      stateWrites (resolutionTrace (launch testEnv ["launcher"] .cdsUninitialized
          stubbornWorld).state.trace) = [.cdsDisabled] ∧
      stateAtValidation (launch testEnv ["launcher"] .cdsUninitialized stubbornWorld).state.trace =
          some c :=
  ⟨by decide,
    auto_downgrade testEnv ["launcher"] .cdsUninitialized stubbornWorld
      (by decide) (by decide) (by decide) (by decide) (by decide)⟩

theorem graceful_degradation_witness :
    .Initialize (.returned .cdsDisabled) ∈ resolutionTrace (launch testEnv ["launcher"]
        .cdsUninitialized stubbornWorld).state.trace ∧
    shownMessages (launch testEnv ["launcher"] .cdsUninitialized stubbornWorld).state.trace = [] ∧
    (executions (launch testEnv ["launcher"] .cdsUninitialized stubbornWorld).state.trace).length =
        1 ∧
    runVMCalls (launch testEnv ["launcher"] .cdsUninitialized stubbornWorld).state.trace =
        [.USER_APP_LAUNCH] ∧
    ∃ r, validationTrace (launch testEnv ["launcher"] .cdsUninitialized stubbornWorld).state.trace =
        [.RunVM .USER_APP_LAUNCH (.returned r)] ∧
      (launch testEnv ["launcher"] .cdsUninitialized stubbornWorld).outcome = .ok r :=
  ⟨by decide,
    graceful_degradation testEnv ["launcher"] .cdsUninitialized stubbornWorld
      (by decide) (by decide) (by decide) (by decide) (by decide) (by decide)⟩

theorem handoff_notification_witness :
    .CheckForSingleInstance (.returned true) ∈ (launch testEnv ["launcher", "document.txt"]
        .cdsUninitialized busyWorld).state.trace ∧
    runVMCalls (launch testEnv ["launcher", "document.txt"] .cdsUninitialized busyWorld).state.trace
        = [.SINGLE_INSTANCE_NOTIFICATION_LAUNCH] ∧
    (∃ o pre post, (launch testEnv ["launcher", "document.txt"] .cdsUninitialized
        busyWorld).state.trace =
        pre ++ [.reactivateAnotherInstance (.returned ()),
          .GetArgs (.returned ["document.txt"]),
          .GetSingleInstanceProcessId (.returned 4242),
          .RunVM .SINGLE_INSTANCE_NOTIFICATION_LAUNCH o] ++ post ∧
      ∀ r, o = .returned r → (launch testEnv ["launcher", "document.txt"] .cdsUninitialized
          busyWorld).outcome = .ok r) ∧
    (∀ e ∈ (launch testEnv ["launcher", "document.txt"] .cdsUninitialized busyWorld).state.trace,
        e.isCacheEffect = false) ∧
    stateWrites (launch testEnv ["launcher", "document.txt"] .cdsUninitialized
        busyWorld).state.trace = stateWrites (scanTrace ["launcher", "document.txt"]) :=
  ⟨by decide,
    handoff_notification testEnv ["launcher", "document.txt"] .cdsUninitialized busyWorld
      ["document.txt"] 4242 (by decide) (by decide) (by decide) (by decide) (by decide)⟩

theorem handoff_without_vm_witness :
    .CheckForSingleInstance (.returned true) ∈ (launch testEnv ["launcher"] .cdsUninitialized
        idleWorld).state.trace ∧
    .GetArgs (.returned []) ∈ (launch testEnv ["launcher"] .cdsUninitialized idleWorld).state.trace
        ∧
    .reactivateAnotherInstance (.returned ()) ∈ (launch testEnv ["launcher"] .cdsUninitialized
        idleWorld).state.trace ∧
    runVMCalls (launch testEnv ["launcher"] .cdsUninitialized idleWorld).state.trace = [] ∧
    (∀ e ∈ (launch testEnv ["launcher"] .cdsUninitialized idleWorld).state.trace, e.isCacheEffect =
        false) ∧
    stateWrites (launch testEnv ["launcher"] .cdsUninitialized idleWorld).state.trace = stateWrites
        (scanTrace ["launcher"]) ∧
    (launch testEnv ["launcher"] .cdsUninitialized idleWorld).outcome = .ok true :=
  ⟨by decide, by decide,
    handoff_without_vm testEnv ["launcher"] .cdsUninitialized idleWorld
      (by decide) (Or.inl (by decide))⟩

theorem genCache_preparation_witness :
    stateAtResolution (launch testEnv ["launcher", "-Xappcds:generatecache", "-Xapp:child"]
        .cdsUninitialized warmWorld).state.trace = some .cdsGenCache ∧
    (∃ d f,
      resolutionTrace (launch testEnv ["launcher", "-Xappcds:generatecache", "-Xapp:child"]
          .cdsUninitialized warmWorld).state.trace =
        [.GetAppCDSCacheDirectory (.returned d), .DirectoryExists d (.returned false),
          .CreateDirectory d true (.returned ())] ∨
      resolutionTrace (launch testEnv ["launcher", "-Xappcds:generatecache", "-Xapp:child"]
          .cdsUninitialized warmWorld).state.trace =
        [.GetAppCDSCacheDirectory (.returned d), .DirectoryExists d (.returned true),
          .GetAppCDSCacheFileName (.returned f), .FileExists f (.returned true),
          .DeleteFile f (.returned ())] ∨
      resolutionTrace (launch testEnv ["launcher", "-Xappcds:generatecache", "-Xapp:child"]
          .cdsUninitialized warmWorld).state.trace =
        [.GetAppCDSCacheDirectory (.returned d), .DirectoryExists d (.returned true),
          .GetAppCDSCacheFileName (.returned f), .FileExists f (.returned false)]) ∧
    filesystemEffects (launch testEnv ["launcher", "-Xappcds:generatecache", "-Xapp:child"]
        .cdsUninitialized warmWorld).state.trace =
      filesystemEffects (resolutionTrace (launch testEnv ["launcher", "-Xappcds:generatecache",
          "-Xapp:child"] .cdsUninitialized warmWorld).state.trace) ∧
    stateAtValidation (launch testEnv ["launcher", "-Xappcds:generatecache", "-Xapp:child"]
        .cdsUninitialized warmWorld).state.trace = some .cdsGenCache ∧
    (launch testEnv ["launcher", "-Xappcds:generatecache", "-Xapp:child"] .cdsUninitialized
        warmWorld).state.FAppCDSState = .cdsGenCache :=
  ⟨by decide,
    genCache_preparation testEnv ["launcher", "-Xappcds:generatecache", "-Xapp:child"]
      .cdsUninitialized warmWorld (by decide) (by decide)⟩

theorem scan_permutation_witness :
    List.Perm ["-Xapp:child", "-Xappcds:off"] ["-Xappcds:off", "-Xapp:child"] ∧
    (scanArguments ["-Xapp:child", "-Xappcds:off"] true
        (⟨.cdsUninitialized, freshWorld, []⟩ : LauncherState TestWorld)).outcome =
      (scanArguments ["-Xappcds:off", "-Xapp:child"] true
        (⟨.cdsUninitialized, freshWorld, []⟩ : LauncherState TestWorld)).outcome ∧
    (¬ ("-Xappcds:generatecache" ∈ ["-Xapp:child", "-Xappcds:off"] ∧
        "-Xappcds:off" ∈ ["-Xapp:child", "-Xappcds:off"]) →
      (scanArguments ["-Xapp:child", "-Xappcds:off"] true
          (⟨.cdsUninitialized, freshWorld, []⟩ : LauncherState TestWorld)).state.FAppCDSState =
        (scanArguments ["-Xappcds:off", "-Xapp:child"] true
          (⟨.cdsUninitialized, freshWorld, []⟩ : LauncherState TestWorld)).state.FAppCDSState) :=
  ⟨List.Perm.swap _ _ _,
    scan_permutation ["-Xapp:child", "-Xappcds:off"] ["-Xappcds:off", "-Xapp:child"]
      (⟨.cdsUninitialized, freshWorld, []⟩ : LauncherState TestWorld) (List.Perm.swap _ _ _)⟩

theorem cache_failure_is_uncaught_witness :
    (Event.CreateDirectory "cache" true
        (.threw (.Exception "cannot create directory"))).cacheFailure =
      some (.Exception "cannot create directory") ∧
    (launch testEnv ["launcher", "-Xappcds:generatecache", "-Xapp:child"] .cdsUninitialized
        fullDiskWorld).outcome = .error (.Exception "cannot create directory") ∧
    shownMessages (launch testEnv ["launcher", "-Xappcds:generatecache", "-Xapp:child"]
        .cdsUninitialized fullDiskWorld).state.trace = [] ∧
    runVMCalls (launch testEnv ["launcher", "-Xappcds:generatecache", "-Xapp:child"]
        .cdsUninitialized fullDiskWorld).state.trace = [] :=
  ⟨rfl,
    cache_failure_is_uncaught testEnv ["launcher", "-Xappcds:generatecache", "-Xapp:child"]
      .cdsUninitialized fullDiskWorld
      (.CreateDirectory "cache" true (.threw (.Exception "cannot create directory")))
      "cannot create directory" (by decide) rfl⟩

theorem validated_before_user_launch_witness :
    .RunVM .USER_APP_LAUNCH (.returned true) ∈ (launch testEnv ["launcher", "document.txt"]
        .cdsUninitialized warmWorld).state.trace ∧
    (launch testEnv ["launcher", "document.txt"] .cdsUninitialized warmWorld).state.FAppCDSState =
        .cdsAuto ∧
    ∃ pre f post, (launch testEnv ["launcher", "document.txt"] .cdsUninitialized
        warmWorld).state.trace =
        pre ++ [.GetAppCDSCacheFileName (.returned f), .FileExists f (.returned true),
          .RunVM .USER_APP_LAUNCH (.returned true)] ++ post ∧
      ∀ e ∈ post, e.isSpawn = false :=
  ⟨by decide, by decide,
    validated_before_user_launch testEnv ["launcher", "document.txt"] .cdsUninitialized
      warmWorld (.returned true) (by decide) (Or.inr (by decide))⟩

end Launcher
